import Mathlib

/-!
Verification of the cache/storage synchronization layer of the
Ranked-Bedwars bot (`src/manager.py`, class `DatabaseManager`).

The manager keeps an in-memory cache (`self._cache`, a nested dict) mirroring
four sqlite tables (guilds, users, matches, match_players) and exposes
connection lifecycle (`connect`, `close`), hydration (`load_cache`), lookups
(`get_guild`, `get_user`) and insert-if-absent / partial-update operations
(`insert_guild`, `update_guild`, `insert_user`, `update_user`).

The embedding below is a direct state-passing translation: Python dicts become
association lists with Python's dict semantics (in-place overwrite on existing
key, append on new key), the sqlite tables become lists of rows, an exception
raised by a storage write becomes an `Except.error` paired with the state the
object has at the raise point (Python exceptions do not roll back the already
performed cache mutations), and the per-call success of each storage write is
an explicit `Bool` oracle parameter.
-/

set_option autoImplicit false

namespace RBW

/-- Row of the `guilds` table.  The column set comes from the dict literal in
`DatabaseManager.insert_guild`; the numeric defaults (0) are the ones the spec
gives for the schema (`schema.sql` itself is not part of `src/`). -/
structure GuildRow where
  guild_id : Int
  vc_queues_category : Int
  vc_matches_category : Int
  scorer_role_id : Int
  log_channel : Int
deriving DecidableEq, Repr

/-- Row of the `users` table, column set from `DatabaseManager.insert_user`. -/
structure UserRow where
  guild_id : Int
  user_id : Int
  username : String
  elo : Int
  banned : Int
  wins : Int
  losses : Int
deriving DecidableEq, Repr

/-- Modelled from the spec: row of the `matches` table.  `schema.sql` is not
under `src/`; the spec gives `matches(tenant_id, match_id, ...)` and treats the
remaining columns as opaque and out of scope (hydration-only, no write path),
so only the key columns are modelled. -/
structure MatchRow where
  guild_id : Int
  match_id : Int
deriving DecidableEq, Repr

/-- Modelled from the spec: row of the `match_players` table, keyed by
`(tenant_id, match_id, member_id)`; further columns are opaque in the spec and
have no write path in `src/`. -/
structure PlayerRow where
  guild_id : Int
  match_id : Int
  user_id : Int
deriving DecidableEq, Repr

/-- Cache value for one match: the match row's columns plus the `"players"`
mapping (`match_dict` in `DatabaseManager.load_cache`). -/
structure MatchEntry where
  row : MatchRow
  players : List (Int × PlayerRow)
deriving DecidableEq, Repr

/-- Cache value for one guild: the guild row's columns plus the `"users"` and
`"matches"` mappings (the dict stored into `self.cache` by `insert_guild` and
`load_cache`).  User cache dicts carry exactly the `users` columns, so they are
`UserRow`s. -/
structure GuildEntry where
  guild_id : Int
  vc_queues_category : Int
  vc_matches_category : Int
  scorer_role_id : Int
  log_channel : Int
  users : List (Int × UserRow)
  matches' : List (Int × MatchEntry)
deriving DecidableEq, Repr

section Dict

variable {α : Type} {β : Type} [DecidableEq α]

/-- Python `d.get(k)`: first (only, for genuine dicts) binding of `k`. -/
def dictGet : List (α × β) → α → Option β
  | [], _ => none
  | p :: rest, k => if p.1 = k then some p.2 else dictGet rest k

/-- Python `d[k] = v`: overwrite in place when the key is present (keeping its
position), append otherwise. -/
def dictSet : List (α × β) → α → β → List (α × β)
  | [], k, v => [(k, v)]
  | p :: rest, k, v => if p.1 = k then (k, v) :: rest else p :: dictSet rest k v

/-- Mutation of the value stored at key `k` (Python mutates the dict obtained
from a lookup in place, which rewrites the binding inside the enclosing
cache). -/
def mapAtKey (l : List (α × β)) (k : α) (f : β → β) : List (α × β) :=
  l.map (fun p => if p.1 = k then (p.1, f p.2) else p)

end Dict

/-- The sqlite database file: the four tables of the schema. -/
structure DB where
  guilds : List GuildRow
  users : List UserRow
  matches' : List MatchRow
  players : List PlayerRow
deriving DecidableEq, Repr

/-- The empty database (fresh file right after schema bootstrap). -/
def DB.empty : DB := ⟨[], [], [], []⟩

/-- The `asqlite.Connection` handle.  The only observable we need is whether
`.close()` has been awaited on it. -/
structure Conn where
  closed : Bool
deriving DecidableEq, Repr

/-- Failures surfaced by the manager: the `assert self.conn is not None`
guard of the `is_connected` decorator, and a failed storage write (sqlite
exception propagating out of `cur.execute`). -/
inductive Err where
  | notConnected
  | storageUnavailable
deriving DecidableEq, Repr

/-- Full state of a `DatabaseManager` process together with the database file:
`cache` is `self._cache`, `conn` is `self._conn`, `schemaRuns` counts how many
times the schema bootstrap in `connect` ran, `db` is the sqlite file. -/
structure SysState where
  cache : List (Int × GuildEntry)
  conn : Option Conn
  schemaRuns : Nat
  db : DB
deriving DecidableEq, Repr

/-- `DatabaseManager.connect`: if `self._conn` is already set, return it
unchanged (no reopen, no schema bootstrap); otherwise open a fresh handle and
run the schema statements. -/
def connect (s : SysState) : Conn × SysState :=
  match s.conn with
  | some c => (c, s)
  | none =>
    let c : Conn := ⟨false⟩
    (c, { s with conn := some c, schemaRuns := s.schemaRuns + 1 })

/-- `DatabaseManager.close`: guarded by `is_connected`; awaits
`self.conn.close()` but never resets `self._conn` to `None`. -/
def close (s : SysState) : Except Err Unit × SysState :=
  match s.conn with
  | none => (.error .notConnected, s)
  | some c => (.ok (), { s with conn := some { c with closed := true } })

/-- `DatabaseManager.get_guild`: pure cache lookup (guarded). -/
def get_guild (s : SysState) (gid : Int) : Except Err (Option GuildEntry) :=
  if s.conn.isNone then .error .notConnected
  else .ok (dictGet s.cache gid)

/-- The default-valued guild cache dict built by `insert_guild`. -/
def defaultGuildEntry (gid : Int) : GuildEntry :=
  { guild_id := gid, vc_queues_category := 0, vc_matches_category := 0,
    scorer_role_id := 0, log_channel := 0, users := [], matches' := [] }

/-- The row `INSERT INTO guilds (guild_id) VALUES (?)` creates: only the id is
supplied, the other columns take the schema defaults (0 per the spec). -/
def defaultGuildRow (gid : Int) : GuildRow := ⟨gid, 0, 0, 0, 0⟩

/-- `DatabaseManager.insert_guild`.  Note the order: the cache dict is stored
first, the `INSERT` is executed afterwards; a failing insert therefore leaves
the new cache entry behind (`writeOk` is the oracle for the insert). -/
def insert_guild (s : SysState) (gid : Int) (writeOk : Bool) :
    Except Err (Option GuildEntry) × SysState :=
  if s.conn.isNone then (.error .notConnected, s)
  else if (dictGet s.cache gid).isSome then (.ok none, s)
  else
    let cache2 := dictSet s.cache gid (defaultGuildEntry gid)
    if writeOk then
      (.ok (dictGet cache2 gid),
        { s with cache := cache2,
                 db := { s.db with guilds := s.db.guilds ++ [defaultGuildRow gid] } })
    else
      (.error .storageUnavailable, { s with cache := cache2 })

/-- Partial-update request for a guild row: the four keyword arguments of
`update_guild`, `none` meaning "not supplied". -/
structure GuildFields where
  vc_queues_category : Option Int := none
  vc_matches_category : Option Int := none
  scorer_role_id : Option Int := none
  log_channel : Option Int := none
deriving DecidableEq, Repr

/-- Application of the supplied fields to a cached guild dict
(`guild_dict[k] = v` for each filtered argument). -/
def applyGuildFields (e : GuildEntry) (f : GuildFields) : GuildEntry :=
  { e with
    vc_queues_category := f.vc_queues_category.getD e.vc_queues_category,
    vc_matches_category := f.vc_matches_category.getD e.vc_matches_category,
    scorer_role_id := f.scorer_role_id.getD e.scorer_role_id,
    log_channel := f.log_channel.getD e.log_channel }

/-- The effect on a `guilds` row of the generated
`UPDATE guilds SET col=?, ... WHERE guild_id = ?`: only the supplied columns
are named in the SET clause. -/
def applyGuildRow (r : GuildRow) (f : GuildFields) : GuildRow :=
  { r with
    vc_queues_category := f.vc_queues_category.getD r.vc_queues_category,
    vc_matches_category := f.vc_matches_category.getD r.vc_matches_category,
    scorer_role_id := f.scorer_role_id.getD r.scorer_role_id,
    log_channel := f.log_channel.getD r.log_channel }

/-- `DatabaseManager.update_guild`: first `await self.insert_guild(guild)`
(its storage oracle is `insertOk`), then filter the keyword arguments; if none
remain return `None`; otherwise mutate the cached dict and run the dynamic
`UPDATE` (oracle `updateOk`). -/
def update_guild (s : SysState) (gid : Int) (f : GuildFields)
    (insertOk updateOk : Bool) : Except Err (Option GuildFields) × SysState :=
  if s.conn.isNone then (.error .notConnected, s)
  else
    match insert_guild s gid insertOk with
    | (.error e, s') => (.error e, s')
    | (.ok _, s1) =>
      if f = {} then (.ok none, s1)
      else
        let cache2 := mapAtKey s1.cache gid (fun e => applyGuildFields e f)
        let guilds2 := s1.db.guilds.map (fun r => if r.guild_id = gid then applyGuildRow r f else r)
        if updateOk then
          (.ok (some f), { s1 with cache := cache2, db := { s1.db with guilds := guilds2 } })
        else
          (.error .storageUnavailable, { s1 with cache := cache2 })

/-- `DatabaseManager.get_user`:
`guild = self.get_guild(member.guild) or await self.insert_guild(member.guild)`
then `guild["users"].get(member.id)`.  The lazy insert's storage oracle is
`insertOk`. -/
def get_user (s : SysState) (gid uid : Int) (insertOk : Bool) :
    Except Err (Option UserRow) × SysState :=
  if s.conn.isNone then (.error .notConnected, s)
  else
    match dictGet s.cache gid with
    | some e => (.ok (dictGet e.users uid), s)
    | none =>
      match insert_guild s gid insertOk with
      | (.error e, s') => (.error e, s')
      | (.ok (some e), s1) => (.ok (dictGet e.users uid), s1)
      | (.ok none, s1) => (.ok none, s1)
      -- unreachable: `insert_guild` on an uncached guild returns the new entry

/-- The default-valued user cache dict built by `insert_user` (also the row
the `INSERT INTO users (guild_id, user_id, username)` creates, the remaining
columns defaulting to 0 per the spec's schema). -/
def defaultUserRow (gid uid : Int) (username : String) : UserRow :=
  { guild_id := gid, user_id := uid, username := username,
    elo := 0, banned := 0, wins := 0, losses := 0 }

/-- `DatabaseManager.insert_user`: look the user up (lazily inserting the
guild, oracle `guildOk`), bail out with `None` when present; otherwise store
the default dict under the guild's `"users"` mapping, run the `INSERT` (oracle
`userOk`) and return `await self.get_user(member)` on the new state. -/
def insert_user (s : SysState) (gid uid : Int) (username : String)
    (guildOk userOk : Bool) : Except Err (Option UserRow) × SysState :=
  if s.conn.isNone then (.error .notConnected, s)
  else
    match get_user s gid uid guildOk with
    | (.error e, s') => (.error e, s')
    | (.ok (some _), s1) => (.ok none, s1)
    | (.ok none, s1) =>
      let urow := defaultUserRow gid uid username
      let cache2 := mapAtKey s1.cache gid (fun e => { e with users := dictSet e.users uid urow })
      if userOk then
        get_user { s1 with cache := cache2, db := { s1.db with users := s1.db.users ++ [urow] } }
          gid uid userOk
      else
        (.error .storageUnavailable, { s1 with cache := cache2 })

/-- Partial-update request for a user row: the five keyword arguments of
`update_user`. -/
structure UserFields where
  username : Option String := none
  elo : Option Int := none
  banned : Option Int := none
  wins : Option Int := none
  losses : Option Int := none
deriving DecidableEq, Repr

/-- Application of the supplied fields to a cached user dict. -/
def applyUserFields (u : UserRow) (f : UserFields) : UserRow :=
  { u with
    username := f.username.getD u.username,
    elo := f.elo.getD u.elo,
    banned := f.banned.getD u.banned,
    wins := f.wins.getD u.wins,
    losses := f.losses.getD u.losses }

/-- The effect of the generated
`UPDATE users SET ... WHERE guild_id=? AND user_id=?` on a `users` row. -/
def applyUserRow (r : UserRow) (f : UserFields) : UserRow :=
  { r with
    username := f.username.getD r.username,
    elo := f.elo.getD r.elo,
    banned := f.banned.getD r.banned,
    wins := f.wins.getD r.wins,
    losses := f.losses.getD r.losses }

/-- `DatabaseManager.update_user`: look the user up (oracle `insertOk` for the
lazy guild insert inside `get_user`), return `None` when absent or when no
field was supplied; otherwise mutate the cached user dict in place and run the
dynamic `UPDATE` (oracle `updateOk`). -/
def update_user (s : SysState) (gid uid : Int) (f : UserFields)
    (insertOk updateOk : Bool) : Except Err (Option UserFields) × SysState :=
  if s.conn.isNone then (.error .notConnected, s)
  else
    match get_user s gid uid insertOk with
    | (.error e, s') => (.error e, s')
    | (.ok none, s1) => (.ok none, s1)
    | (.ok (some _), s1) =>
      if f = {} then (.ok none, s1)
      else
        let cache2 := mapAtKey s1.cache gid
          (fun e => { e with users := mapAtKey e.users uid (fun u => applyUserFields u f) })
        let users2 := s1.db.users.map
          (fun r => if r.guild_id = gid ∧ r.user_id = uid then applyUserRow r f else r)
        if updateOk then
          (.ok (some f), { s1 with cache := cache2, db := { s1.db with users := users2 } })
        else
          (.error .storageUnavailable, { s1 with cache := cache2 })

/-- Generic keyed fold: store each row under its key, in list order (the shape
of every dict-building loop in `load_cache`). -/
def kfold {ρ α β : Type} [DecidableEq α] (key : ρ → α) (b : ρ → β) :
    List ρ → List (α × β) → List (α × β)
  | [], c => c
  | r :: rest, c => kfold key b rest (dictSet c (key r) (b r))

/-- The `"players"` dict `load_cache` builds for one match:
`SELECT * FROM match_players WHERE guild_id=? AND match_id=?`, keyed by
`user_id`. -/
def buildPlayers (ps : List PlayerRow) (gid mid : Int) : List (Int × PlayerRow) :=
  kfold (fun p => p.user_id) (fun p => p)
    (ps.filter (fun p => p.guild_id == gid && p.match_id == mid)) []

/-- The `"matches"` dict `load_cache` builds for one guild:
`SELECT * FROM matches WHERE guild_id=?`, keyed by `match_id`, each with its
players dict. -/
def buildMatches (ms : List MatchRow) (ps : List PlayerRow) (gid : Int) :
    List (Int × MatchEntry) :=
  kfold (fun m => m.match_id)
    (fun m => { row := m, players := buildPlayers ps gid m.match_id })
    (ms.filter (fun m => m.guild_id == gid)) []

/-- The `"users"` dict `load_cache` builds for one guild:
`SELECT * FROM users WHERE guild_id=?`, keyed by `user_id`. -/
def buildUsers (us : List UserRow) (gid : Int) : List (Int × UserRow) :=
  kfold (fun u => u.user_id) (fun u => u)
    (us.filter (fun u => u.guild_id == gid)) []

/-- The `guild_dict` that `load_cache` builds for one guild row. -/
def buildGuildEntry (us : List UserRow) (ms : List MatchRow) (ps : List PlayerRow)
    (g : GuildRow) : GuildEntry :=
  { guild_id := g.guild_id, vc_queues_category := g.vc_queues_category,
    vc_matches_category := g.vc_matches_category, scorer_role_id := g.scorer_role_id,
    log_channel := g.log_channel,
    users := buildUsers us g.guild_id,
    matches' := buildMatches ms ps g.guild_id }

/-- The cache a `load_cache` run produces when started from an empty cache:
one entry per `guilds` row, in `SELECT` order. -/
def loadOfDb (db : DB) : List (Int × GuildEntry) :=
  kfold (fun g => g.guild_id) (buildGuildEntry db.users db.matches' db.players) db.guilds []

/-- `DatabaseManager.load_cache`: for every guild row of the database, build
its nested dict and store it into the existing cache with
`self.cache[guild["guild_id"]] = guild_dict`.  There is no clearing step. -/
def load_cache (s : SysState) : Except Err (List (Int × GuildEntry)) × SysState :=
  if s.conn.isNone then (.error .notConnected, s)
  else
    let cache2 := kfold (fun g => g.guild_id)
      (buildGuildEntry s.db.users s.db.matches' s.db.players) s.db.guilds s.cache
    (.ok cache2, { s with cache := cache2 })

/-- Read-only view of the cached profile of `(gid, uid)` (what
`get_user` returns without its lazy-insert side effect). -/
def cachedProfile (s : SysState) (gid uid : Int) : Option UserRow :=
  (dictGet s.cache gid).bind (fun e => dictGet e.users uid)

/-- Referential integrity of the backing store: every `users` row and every
`matches` row names an id actually present in `guilds`.  (True of every store
reachable through the manager when its writes succeed; used to know a freshly
inserted guild hydrates with empty `users`/`matches` mappings.) -/
def orphanFree (db : DB) : Prop :=
  (∀ u ∈ db.users, ∃ g ∈ db.guilds, g.guild_id = u.guild_id) ∧
  (∀ m ∈ db.matches', ∃ g ∈ db.guilds, g.guild_id = m.guild_id)

/-- The write-through invariant: the cache is exactly what hydrating the
backing store from an empty cache would produce, and the store has no orphan
rows. -/
def synced (s : SysState) : Prop :=
  s.cache = loadOfDb s.db ∧ orphanFree s.db

instance (db : DB) : Decidable (orphanFree db) := by
  unfold orphanFree; infer_instance

instance (s : SysState) : Decidable (synced s) := by
  unfold synced; infer_instance

/-- One call of the command layer into the synchronization engine (ensure /
update / profile read), with all storage writes succeeding. -/
inductive Op where
  | insertGuild (gid : Int)
  | updateGuild (gid : Int) (f : GuildFields)
  | getUser (gid uid : Int)
  | insertUser (gid uid : Int) (name : String)
  | updateUser (gid uid : Int) (f : UserFields)
deriving DecidableEq, Repr

/-- State reached after one operation (storage writes succeeding). -/
def runOp (s : SysState) : Op → SysState
  | .insertGuild gid => (insert_guild s gid true).2
  | .updateGuild gid f => (update_guild s gid f true true).2
  | .getUser gid uid => (get_user s gid uid true).2
  | .insertUser gid uid name => (insert_user s gid uid name true true).2
  | .updateUser gid uid f => (update_user s gid uid f true true).2

/-- State reached after a sequence of operations. -/
def runOps (s : SysState) (ops : List Op) : SysState := ops.foldl runOp s

/-- Results of the operations are compared in concrete test states, so give
`Except` decidable equality. -/
instance {E A : Type} [DecidableEq E] [DecidableEq A] : DecidableEq (Except E A) :=
  fun a b =>
    match a, b with
    | .error e1, .error e2 =>
      if h : e1 = e2 then .isTrue (by rw [h])
      else .isFalse (fun hh => h (by injection hh))
    | .error _, .ok _ => .isFalse (fun hh => Except.noConfusion hh)
    | .ok _, .error _ => .isFalse (fun hh => Except.noConfusion hh)
    | .ok a1, .ok a2 =>
      if h : a1 = a2 then .isTrue (by rw [h])
      else .isFalse (fun hh => h (by injection hh))

/-- A freshly connected manager over an empty database: the state right after
`connect()` ran on a new database file. -/
def initState : SysState :=
  { cache := [], conn := some ⟨false⟩, schemaRuns := 1, db := DB.empty }

section DictLemmas

variable {α β : Type} [DecidableEq α]

theorem dictGet_dictSet (l : List (α × β)) (k k' : α) (v : β) :
    dictGet (dictSet l k v) k' = if k' = k then some v else dictGet l k' := by
  induction l with
  | nil =>
    by_cases h : k = k'
    · subst h; simp [dictSet, dictGet]
    · simp [dictSet, dictGet, h, Ne.symm h]
  | cons p rest ih =>
    by_cases hp : p.1 = k
    · by_cases h : k = k'
      · subst h; simp [dictSet, dictGet, hp]
      · simp [dictSet, dictGet, hp, h, Ne.symm h]
    · by_cases h : p.1 = k'
      · have : ¬ (k' = k) := fun hh => hp (h.trans hh)
        simp [dictSet, dictGet, hp, h, this]
      · simp [dictSet, dictGet, hp, h, ih]

theorem dictGet_mapAtKey (l : List (α × β)) (k k' : α) (f : β → β) :
    dictGet (mapAtKey l k f) k' =
      if k' = k then (dictGet l k').map f else dictGet l k' := by
  induction l with
  | nil => simp [mapAtKey, dictGet]
  | cons p rest ih =>
    simp only [mapAtKey] at ih ⊢
    by_cases hp : p.1 = k
    · by_cases h : p.1 = k'
      · have hk : k' = k := h.symm.trans hp
        simp [dictGet, hp, h, hk]
      · have hk : ¬ (k' = k) := fun hh => h (hp.trans hh.symm)
        have hk' : ¬ (k = k') := fun hh => hk hh.symm
        simp [dictGet, hp, h, ih, hk, hk']
    · by_cases h : p.1 = k'
      · have hk : ¬ (k' = k) := fun hh => hp (h.trans hh)
        simp [dictGet, hp, h, hk]
      · simp [dictGet, hp, h, ih]

theorem dictSet_mapAtKey_self (l : List (α × β)) (k : α) (f : β → β) (v : β) :
    dictSet (mapAtKey l k f) k (f v) = mapAtKey (dictSet l k v) k f := by
  induction l with
  | nil => simp [mapAtKey, dictSet]
  | cons p rest ih =>
    simp only [mapAtKey] at ih ⊢
    by_cases hp : p.1 = k
    · simp [dictSet, hp]
    · simp [dictSet, hp, ih]

theorem dictSet_mapAtKey_ne (l : List (α × β)) {k k' : α} (h : k' ≠ k)
    (f : β → β) (v : β) :
    dictSet (mapAtKey l k f) k' v = mapAtKey (dictSet l k' v) k f := by
  induction l with
  | nil => simp [mapAtKey, dictSet, h, Ne.symm h]
  | cons p rest ih =>
    simp only [mapAtKey] at ih ⊢
    by_cases hp : p.1 = k
    · have hpk : ¬ (p.1 = k') := fun hh => h (hh.symm.trans hp)
      simp [dictSet, hp, hpk, h, Ne.symm h, ih]
    · by_cases hq : p.1 = k'
      · simp [dictSet, hp, hq, h, Ne.symm h]
      · simp [dictSet, hp, hq, ih]

variable {ρ σ : Type}

theorem kfold_append (key : ρ → α) (b : ρ → β) (l l' : List ρ) (c : List (α × β)) :
    kfold key b (l ++ l') c = kfold key b l' (kfold key b l c) := by
  induction l generalizing c with
  | nil => rfl
  | cons r rest ih => simp [kfold, ih]

theorem kfold_map (key : σ → α) (b : σ → β) (m : ρ → σ) (l : List ρ) (c : List (α × β)) :
    kfold key b (l.map m) c = kfold (fun r => key (m r)) (fun r => b (m r)) l c := by
  induction l generalizing c with
  | nil => rfl
  | cons r rest ih => simp [kfold, ih]

theorem kfold_congr (key : ρ → α) (b : ρ → β) {key' : ρ → α} {b' : ρ → β} {l : List ρ}
    (hk : ∀ r ∈ l, key' r = key r) (hb : ∀ r ∈ l, b' r = b r) (c : List (α × β)) :
    kfold key' b' l c = kfold key b l c := by
  induction l generalizing c with
  | nil => rfl
  | cons r rest ih =>
    simp only [kfold]
    rw [hk r (List.mem_cons_self r rest), hb r (List.mem_cons_self r rest)]
    exact ih (fun x hx => hk x (List.mem_cons_of_mem r hx))
      (fun x hx => hb x (List.mem_cons_of_mem r hx)) _

theorem kfold_mapAtKey (key : ρ → α) (b b' : ρ → β) (f : β → β) (k : α) (l : List ρ)
    (h1 : ∀ r ∈ l, key r = k → b' r = f (b r))
    (h2 : ∀ r ∈ l, key r ≠ k → b' r = b r) (c : List (α × β)) :
    kfold key b' l (mapAtKey c k f) = mapAtKey (kfold key b l c) k f := by
  induction l generalizing c with
  | nil => rfl
  | cons r rest ih =>
    simp only [kfold]
    by_cases hr : key r = k
    · subst hr
      rw [h1 r (List.mem_cons_self r rest) rfl, dictSet_mapAtKey_self]
      exact ih (fun x hx => h1 x (List.mem_cons_of_mem r hx))
        (fun x hx => h2 x (List.mem_cons_of_mem r hx)) _
    · rw [h2 r (List.mem_cons_self r rest) hr, dictSet_mapAtKey_ne _ hr]
      exact ih (fun x hx => h1 x (List.mem_cons_of_mem r hx))
        (fun x hx => h2 x (List.mem_cons_of_mem r hx)) _

theorem dictGet_kfold_none (key : ρ → α) (b : ρ → β) (l : List ρ)
    (c : List (α × β)) (k : α) :
    dictGet (kfold key b l c) k = none ↔
      dictGet c k = none ∧ ∀ r ∈ l, key r ≠ k := by
  induction l generalizing c with
  | nil => simp [kfold]
  | cons r rest ih =>
    simp only [kfold, ih, dictGet_dictSet]
    by_cases hk : k = key r
    · simp [hk]
    · simp only [if_neg hk, List.mem_cons]
      constructor
      · rintro ⟨hc, hall⟩
        exact ⟨hc, fun x hx => by
          rcases hx with hx | hx
          · subst hx; exact fun hh => hk hh.symm
          · exact hall x hx⟩
      · rintro ⟨hc, hall⟩
        exact ⟨hc, fun x hx => hall x (Or.inr hx)⟩

end DictLemmas

section BuildLemmas

/-- The cache-side and store-side applications of a filtered user update
coincide (the cached user dicts are exactly the table rows). -/
theorem applyUserRow_eq (u : UserRow) (f : UserFields) :
    applyUserRow u f = applyUserFields u f := rfl

/-- Hydrating an updated guild row yields the update of the hydrated entry. -/
theorem buildGuildEntry_applyRow (us : List UserRow) (ms : List MatchRow)
    (ps : List PlayerRow) (g : GuildRow) (f : GuildFields) :
    buildGuildEntry us ms ps (applyGuildRow g f)
      = applyGuildFields (buildGuildEntry us ms ps g) f := rfl

theorem buildUsers_eq_nil {us : List UserRow} {gid : Int}
    (h : ∀ u ∈ us, u.guild_id ≠ gid) : buildUsers us gid = [] := by
  unfold buildUsers
  rw [List.filter_eq_nil_iff.mpr (by intro u hu; simp [h u hu])]
  rfl

theorem buildMatches_eq_nil {ms : List MatchRow} {ps : List PlayerRow} {gid : Int}
    (h : ∀ m ∈ ms, m.guild_id ≠ gid) : buildMatches ms ps gid = [] := by
  unfold buildMatches
  rw [List.filter_eq_nil_iff.mpr (by intro m hm; simp [h m hm])]
  rfl

theorem buildUsers_append_self (us : List UserRow) (u : UserRow) :
    buildUsers (us ++ [u]) u.guild_id
      = dictSet (buildUsers us u.guild_id) u.user_id u := by
  unfold buildUsers
  rw [List.filter_append, kfold_append]
  simp [kfold, List.filter_cons]

theorem buildUsers_append_ne (us : List UserRow) (u : UserRow) (g : Int)
    (h : ¬ u.guild_id = g) : buildUsers (us ++ [u]) g = buildUsers us g := by
  unfold buildUsers
  rw [List.filter_append]
  simp [kfold, List.filter_cons, h]

theorem buildUsers_map_upd_ne (us : List UserRow) (gid uid : Int) (f : UserFields)
    (g : Int) (h : ¬ g = gid) :
    buildUsers (us.map
        (fun r => if r.guild_id = gid ∧ r.user_id = uid then applyUserRow r f else r)) g
      = buildUsers us g := by
  unfold buildUsers
  rw [List.filter_map]
  rw [List.filter_congr (q := fun u : UserRow => u.guild_id == g) (by
    intro r hr
    by_cases hc : r.guild_id = gid ∧ r.user_id = uid
    · simp [hc, applyUserRow]
    · simp [hc])]
  rw [kfold_map]
  refine kfold_congr _ _ ?_ ?_ []
  · intro r hr
    by_cases hc : r.guild_id = gid ∧ r.user_id = uid
    · simp [hc, applyUserRow]
    · simp [hc]
  · intro r hr
    have hg : r.guild_id = g := by
      have := (List.mem_filter.mp hr).2
      simpa using this
    have hc : ¬ (r.guild_id = gid ∧ r.user_id = uid) := fun hh => h (hg.symm.trans hh.1)
    simp [hc]

theorem buildUsers_map_upd_self (us : List UserRow) (gid uid : Int) (f : UserFields) :
    buildUsers (us.map
        (fun r => if r.guild_id = gid ∧ r.user_id = uid then applyUserRow r f else r)) gid
      = mapAtKey (buildUsers us gid) uid (fun u => applyUserFields u f) := by
  unfold buildUsers
  rw [List.filter_map]
  rw [List.filter_congr (q := fun u : UserRow => u.guild_id == gid) (by
    intro r hr
    by_cases hc : r.guild_id = gid ∧ r.user_id = uid
    · simp [hc, applyUserRow]
    · simp [hc])]
  rw [kfold_map]
  rw [kfold_congr (fun u : UserRow => u.user_id)
    (fun r : UserRow =>
      if r.guild_id = gid ∧ r.user_id = uid then applyUserRow r f else r)
    (by
      intro r hr
      by_cases hc : r.guild_id = gid ∧ r.user_id = uid
      · simp [hc, applyUserRow]
      · simp [hc])
    (fun _ _ => rfl) []]
  have := kfold_mapAtKey (fun u : UserRow => u.user_id) (fun u => u)
    (fun r => if r.guild_id = gid ∧ r.user_id = uid then applyUserRow r f else r)
    (fun u => applyUserFields u f) uid
    (us.filter (fun u : UserRow => u.guild_id == gid))
    (by
      intro r hr hu
      have hg : r.guild_id = gid := by
        have := (List.mem_filter.mp hr).2
        simpa using this
      simp [hg, hu, applyUserRow_eq])
    (by
      intro r hr hu
      have hc : ¬ (r.guild_id = gid ∧ r.user_id = uid) := fun hh => hu hh.2
      simp [hc]) []
  simpa [mapAtKey] using this

end BuildLemmas

section LoadLemmas

/-- Keys of the hydrated cache come from `guilds` rows. -/
theorem loadOfDb_none {db : DB} {gid : Int}
    (h : dictGet (loadOfDb db) gid = none) : ∀ g ∈ db.guilds, g.guild_id ≠ gid :=
  ((dictGet_kfold_none _ _ _ _ _).mp h).2

/-- A hydrated cache entry witnesses a `guilds` row with that id. -/
theorem loadOfDb_some {db : DB} {gid : Int} {e : GuildEntry}
    (h : dictGet (loadOfDb db) gid = some e) : ∃ g ∈ db.guilds, g.guild_id = gid := by
  by_contra hc
  push_neg at hc
  have : dictGet (loadOfDb db) gid = none :=
    (dictGet_kfold_none _ _ _ _ _).mpr ⟨rfl, hc⟩
  rw [this] at h
  exact Option.noConfusion h

/-- Effect of `INSERT INTO guilds` on the hydrated cache, when no user or
match row already carries the fresh id. -/
theorem loadOfDb_append_guild (db : DB) (gid : Int)
    (hu : ∀ u ∈ db.users, u.guild_id ≠ gid)
    (hm : ∀ m ∈ db.matches', m.guild_id ≠ gid) :
    loadOfDb { db with guilds := db.guilds ++ [defaultGuildRow gid] }
      = dictSet (loadOfDb db) gid (defaultGuildEntry gid) := by
  unfold loadOfDb
  rw [kfold_append]
  simp only [kfold]
  have : buildGuildEntry db.users db.matches' db.players (defaultGuildRow gid)
      = defaultGuildEntry gid := by
    simp [buildGuildEntry, defaultGuildRow, defaultGuildEntry,
      buildUsers_eq_nil hu, buildMatches_eq_nil hm]
  rw [this]
  simp [defaultGuildRow]

/-- Effect of the dynamic `UPDATE guilds` on the hydrated cache. -/
theorem loadOfDb_map_guilds (db : DB) (gid : Int) (f : GuildFields) :
    loadOfDb { db with guilds := (db.guilds.map
        (fun r => if r.guild_id = gid then applyGuildRow r f else r)) }
      = mapAtKey (loadOfDb db) gid (fun e => applyGuildFields e f) := by
  unfold loadOfDb
  rw [kfold_map]
  rw [kfold_congr (fun g : GuildRow => g.guild_id)
    (fun r : GuildRow =>
      buildGuildEntry db.users db.matches' db.players
        (if r.guild_id = gid then applyGuildRow r f else r))
    (by
      intro r hr
      by_cases hc : r.guild_id = gid
      · simp [hc, applyGuildRow]
      · simp [hc])
    (fun _ _ => rfl) []]
  have := kfold_mapAtKey (fun g : GuildRow => g.guild_id)
    (buildGuildEntry db.users db.matches' db.players)
    (fun r => buildGuildEntry db.users db.matches' db.players
      (if r.guild_id = gid then applyGuildRow r f else r))
    (fun e => applyGuildFields e f) gid db.guilds
    (by
      intro r hr hg
      simp [hg, buildGuildEntry_applyRow])
    (by
      intro r hr hg
      simp [hg]) []
  simpa [mapAtKey] using this

/-- Effect of `INSERT INTO users` on the hydrated cache. -/
theorem loadOfDb_append_user (db : DB) (u : UserRow) :
    loadOfDb { db with users := db.users ++ [u] }
      = mapAtKey (loadOfDb db) u.guild_id
          (fun e => { e with users := dictSet e.users u.user_id u }) := by
  unfold loadOfDb
  have := kfold_mapAtKey (fun g : GuildRow => g.guild_id)
    (buildGuildEntry db.users db.matches' db.players)
    (buildGuildEntry (db.users ++ [u]) db.matches' db.players)
    (fun e => { e with users := dictSet e.users u.user_id u })
    u.guild_id db.guilds
    (by
      intro g hg hgid
      simp [buildGuildEntry, hgid, buildUsers_append_self])
    (by
      intro g hg hgid
      simp [buildGuildEntry, buildUsers_append_ne _ _ _ (fun hh => hgid hh.symm)]) []
  simpa [mapAtKey] using this

/-- Effect of the dynamic `UPDATE users` on the hydrated cache. -/
theorem loadOfDb_map_users (db : DB) (gid uid : Int) (f : UserFields) :
    loadOfDb { db with users := (db.users.map
        (fun r => if r.guild_id = gid ∧ r.user_id = uid then applyUserRow r f else r)) }
      = mapAtKey (loadOfDb db) gid
          (fun e => { e with users := mapAtKey e.users uid (fun u => applyUserFields u f) }) := by
  unfold loadOfDb
  have := kfold_mapAtKey (fun g : GuildRow => g.guild_id)
    (buildGuildEntry db.users db.matches' db.players)
    (buildGuildEntry (db.users.map
      (fun r => if r.guild_id = gid ∧ r.user_id = uid then applyUserRow r f else r))
      db.matches' db.players)
    (fun e => { e with users := mapAtKey e.users uid (fun u => applyUserFields u f) })
    gid db.guilds
    (by
      intro g hg hgid
      simp [buildGuildEntry, hgid, buildUsers_map_upd_self])
    (by
      intro g hg hgid
      simp [buildGuildEntry, buildUsers_map_upd_ne _ _ _ _ _ hgid]) []
  simpa [mapAtKey] using this

end LoadLemmas

section OpCharacterization

/-- On a connected manager, `insert_guild` for a cached guild is a pure no-op
signalled by `None`. -/
theorem insert_guild_present {s : SysState} {gid : Int} {e : GuildEntry} (w : Bool)
    (hc : s.conn.isSome) (he : dictGet s.cache gid = some e) :
    insert_guild s gid w = (.ok none, s) := by
  have hn : s.conn.isNone = false := by cases h : s.conn <;> simp_all
  simp [insert_guild, hn, he]

/-- On a connected manager, `insert_guild` for a fresh guild with a succeeding
storage write caches and persists the default row and returns it. -/
theorem insert_guild_fresh_ok {s : SysState} {gid : Int}
    (hc : s.conn.isSome) (hg : dictGet s.cache gid = none) :
    insert_guild s gid true =
      (.ok (some (defaultGuildEntry gid)),
        { s with cache := dictSet s.cache gid (defaultGuildEntry gid),
                 db := { s.db with guilds := s.db.guilds ++ [defaultGuildRow gid] } }) := by
  have hn : s.conn.isNone = false := by cases h : s.conn <;> simp_all
  simp [insert_guild, hn, hg, dictGet_dictSet]

/-- On a connected manager, `insert_guild` for a fresh guild with a failing
storage write raises — after the cache entry has already been stored. -/
theorem insert_guild_fresh_fail {s : SysState} {gid : Int}
    (hc : s.conn.isSome) (hg : dictGet s.cache gid = none) :
    insert_guild s gid false =
      (.error .storageUnavailable,
        { s with cache := dictSet s.cache gid (defaultGuildEntry gid) }) := by
  have hn : s.conn.isNone = false := by cases h : s.conn <;> simp_all
  simp [insert_guild, hn, hg]

/-- `get_user` on a cached guild is a pure lookup. -/
theorem get_user_present {s : SysState} {gid : Int} {e : GuildEntry} (uid : Int) (w : Bool)
    (hc : s.conn.isSome) (he : dictGet s.cache gid = some e) :
    get_user s gid uid w = (.ok (dictGet e.users uid), s) := by
  have hn : s.conn.isNone = false := by cases h : s.conn <;> simp_all
  simp [get_user, hn, he]

/-- `get_user` on an uncached guild lazily inserts the guild and reports the
member as absent. -/
theorem get_user_absent_ok {s : SysState} {gid : Int} (uid : Int)
    (hc : s.conn.isSome) (hg : dictGet s.cache gid = none) :
    get_user s gid uid true =
      (.ok none,
        { s with cache := dictSet s.cache gid (defaultGuildEntry gid),
                 db := { s.db with guilds := s.db.guilds ++ [defaultGuildRow gid] } }) := by
  have hn : s.conn.isNone = false := by cases h : s.conn <;> simp_all
  simp [get_user, hn, hg, insert_guild_fresh_ok hc hg, defaultGuildEntry, dictGet]

end OpCharacterization

section Preservation

theorem orphanFree_append_guild {db : DB} (ho : orphanFree db) (g0 : GuildRow) :
    orphanFree { db with guilds := db.guilds ++ [g0] } := by
  obtain ⟨hu, hm⟩ := ho
  constructor
  · intro u hu2
    obtain ⟨g, hg, he⟩ := hu u hu2
    exact ⟨g, List.mem_append_left _ hg, he⟩
  · intro m hm2
    obtain ⟨g, hg, he⟩ := hm m hm2
    exact ⟨g, List.mem_append_left _ hg, he⟩

theorem orphanFree_map_guilds {db : DB} (ho : orphanFree db) (gid : Int) (f : GuildFields) :
    orphanFree { db with guilds := (db.guilds.map
      (fun r => if r.guild_id = gid then applyGuildRow r f else r)) } := by
  obtain ⟨hu, hm⟩ := ho
  have hid : ∀ r : GuildRow,
      (if r.guild_id = gid then applyGuildRow r f else r).guild_id = r.guild_id := by
    intro r
    by_cases hc : r.guild_id = gid <;> simp [hc, applyGuildRow]
  constructor
  · intro u hu2
    obtain ⟨g, hg, he⟩ := hu u hu2
    exact ⟨_, List.mem_map_of_mem _ hg, (hid g).trans he⟩
  · intro m hm2
    obtain ⟨g, hg, he⟩ := hm m hm2
    exact ⟨_, List.mem_map_of_mem _ hg, (hid g).trans he⟩

theorem orphanFree_append_user {db : DB} (ho : orphanFree db) {u : UserRow}
    (hg : ∃ g ∈ db.guilds, g.guild_id = u.guild_id) :
    orphanFree { db with users := db.users ++ [u] } := by
  obtain ⟨hu, hm⟩ := ho
  constructor
  · intro u2 hu2
    rcases List.mem_append.mp hu2 with h2 | h2
    · exact hu u2 h2
    · rcases List.mem_singleton.mp h2 with rfl
      exact hg
  · exact hm

theorem orphanFree_map_users {db : DB} (ho : orphanFree db) (gid uid : Int) (f : UserFields) :
    orphanFree { db with users := (db.users.map
      (fun r => if r.guild_id = gid ∧ r.user_id = uid then applyUserRow r f else r)) } := by
  obtain ⟨hu, hm⟩ := ho
  constructor
  · intro u2 hu2
    obtain ⟨u0, hu0, rfl⟩ := List.mem_map.mp hu2
    have hid : (if u0.guild_id = gid ∧ u0.user_id = uid then applyUserRow u0 f else u0).guild_id
        = u0.guild_id := by
      by_cases hc : u0.guild_id = gid ∧ u0.user_id = uid <;> simp [hc, applyUserRow]
    obtain ⟨g, hg, he⟩ := hu u0 hu0
    exact ⟨g, hg, he.trans hid.symm⟩
  · exact hm

theorem synced_insert_guild {s : SysState} (h : synced s) (gid : Int) :
    synced (insert_guild s gid true).2 := by
  by_cases hc : s.conn.isSome
  · cases hdg : dictGet s.cache gid with
    | some e => rw [insert_guild_present true hc hdg]; exact h
    | none =>
      rw [insert_guild_fresh_ok hc hdg]
      obtain ⟨hcache, ho⟩ := h
      have hgids : ∀ g ∈ s.db.guilds, g.guild_id ≠ gid := loadOfDb_none (hcache ▸ hdg)
      have hu' : ∀ u ∈ s.db.users, u.guild_id ≠ gid := by
        intro u hu2 heq
        obtain ⟨g, hg2, hgid2⟩ := ho.1 u hu2
        exact hgids g hg2 (hgid2.trans heq)
      have hm' : ∀ m ∈ s.db.matches', m.guild_id ≠ gid := by
        intro m hm2 heq
        obtain ⟨g, hg2, hgid2⟩ := ho.2 m hm2
        exact hgids g hg2 (hgid2.trans heq)
      refine ⟨?_, orphanFree_append_guild ho _⟩
      show dictSet s.cache gid (defaultGuildEntry gid) = _
      rw [loadOfDb_append_guild _ _ hu' hm', hcache]
  · have hn : s.conn.isNone = true := by cases hcc : s.conn <;> simp_all
    simpa [insert_guild, hn] using h

/-- The state produced by `update_guild`'s cache-and-store field application
stays synced. -/
theorem synced_guild_update_write {s : SysState} (h : synced s) (gid : Int) (f : GuildFields) :
    synced { s with
      cache := mapAtKey s.cache gid (fun e => applyGuildFields e f),
      db := { s.db with guilds := (s.db.guilds.map
        (fun r => if r.guild_id = gid then applyGuildRow r f else r)) } } := by
  obtain ⟨hcache, ho⟩ := h
  refine ⟨?_, orphanFree_map_guilds ho gid f⟩
  dsimp only
  rw [loadOfDb_map_guilds, hcache]

/-- The state produced by `insert_user`'s cache-and-store user insertion stays
synced, provided the owning guild is cached. -/
theorem synced_user_write {s : SysState} {gid : Int} {e : GuildEntry} (uid : Int)
    (name : String) (h : synced s) (he : dictGet s.cache gid = some e) :
    synced { s with
      cache := mapAtKey s.cache gid
        (fun e2 => { e2 with users := dictSet e2.users uid (defaultUserRow gid uid name) }),
      db := { s.db with users := s.db.users ++ [defaultUserRow gid uid name] } } := by
  obtain ⟨hcache, ho⟩ := h
  have hg : ∃ g ∈ s.db.guilds, g.guild_id = gid := loadOfDb_some (hcache ▸ he)
  refine ⟨?_, orphanFree_append_user ho (by simpa [defaultUserRow] using hg)⟩
  dsimp only
  rw [loadOfDb_append_user, hcache]
  rfl

/-- The state produced by `update_user`'s cache-and-store field application
stays synced. -/
theorem synced_user_update_write {s : SysState} (h : synced s) (gid uid : Int) (f : UserFields) :
    synced { s with
      cache := mapAtKey s.cache gid
        (fun e => { e with users := mapAtKey e.users uid (fun u => applyUserFields u f) }),
      db := { s.db with users := (s.db.users.map
        (fun r => if r.guild_id = gid ∧ r.user_id = uid then applyUserRow r f else r)) } } := by
  obtain ⟨hcache, ho⟩ := h
  refine ⟨?_, orphanFree_map_users ho gid uid f⟩
  dsimp only
  rw [loadOfDb_map_users, hcache]

theorem synced_get_user {s : SysState} (h : synced s) (gid uid : Int) :
    synced (get_user s gid uid true).2 := by
  by_cases hc : s.conn.isSome
  · cases hdg : dictGet s.cache gid with
    | some e => rw [get_user_present uid true hc hdg]; exact h
    | none =>
      rw [get_user_absent_ok uid hc hdg]
      have := synced_insert_guild h gid
      rwa [insert_guild_fresh_ok hc hdg] at this
  · have hn : s.conn.isNone = true := by cases hcc : s.conn <;> simp_all
    simpa [get_user, hn] using h

theorem synced_update_guild {s : SysState} (h : synced s) (gid : Int) (f : GuildFields) :
    synced (update_guild s gid f true true).2 := by
  by_cases hc : s.conn.isSome
  · have hn : s.conn.isNone = false := by cases hcc : s.conn <;> simp_all
    cases hdg : dictGet s.cache gid with
    | some e =>
      simp only [update_guild, hn, Bool.false_eq_true, if_false,
        insert_guild_present true hc hdg]
      by_cases hf : f = {}
      · simpa [hf] using h
      · simpa [hf] using synced_guild_update_write h gid f
    | none =>
      have hs1 := synced_insert_guild h gid
      rw [insert_guild_fresh_ok hc hdg] at hs1
      simp only [update_guild, hn, Bool.false_eq_true, if_false,
        insert_guild_fresh_ok hc hdg]
      by_cases hf : f = {}
      · simpa [hf] using hs1
      · simpa [hf] using synced_guild_update_write hs1 gid f
  · have hn : s.conn.isNone = true := by cases hcc : s.conn <;> simp_all
    simpa [update_guild, hn] using h

theorem synced_insert_user {s : SysState} (h : synced s) (gid uid : Int) (name : String) :
    synced (insert_user s gid uid name true true).2 := by
  by_cases hc : s.conn.isSome
  · have hn : s.conn.isNone = false := by cases hcc : s.conn <;> simp_all
    -- first reduce the internal `get_user`
    cases hdg : dictGet s.cache gid with
    | some e =>
      cases hdu : dictGet e.users uid with
      | some u =>
        simp only [insert_user, hn, Bool.false_eq_true, if_false,
          get_user_present uid true hc hdg, hdu]
        exact h
      | none =>
        have hwrite := synced_user_write uid name h hdg
        have hpresent : dictGet (mapAtKey s.cache gid
            (fun e2 => { e2 with users := dictSet e2.users uid (defaultUserRow gid uid name) })) gid
            = some { e with users := dictSet e.users uid (defaultUserRow gid uid name) } := by
          rw [dictGet_mapAtKey]
          simp [hdg]
        simp only [insert_user, hn, Bool.false_eq_true, if_false,
          get_user_present uid true hc hdg, hdu]
        rw [get_user_present uid true (by simpa using hc) hpresent]
        exact hwrite
    | none =>
      -- `get_user` lazily inserts the guild, then the user branch runs on s1
      have hs1 := synced_insert_guild h gid
      rw [insert_guild_fresh_ok hc hdg] at hs1
      have hdg1 : dictGet (dictSet s.cache gid (defaultGuildEntry gid)) gid
          = some (defaultGuildEntry gid) := by
        rw [dictGet_dictSet]; simp
      have hdu1 : dictGet (defaultGuildEntry gid).users uid = none := rfl
      have hwrite := synced_user_write uid name hs1 hdg1
      have hpresent : dictGet (mapAtKey (dictSet s.cache gid (defaultGuildEntry gid)) gid
          (fun e2 => { e2 with users := dictSet e2.users uid (defaultUserRow gid uid name) })) gid
          = some { defaultGuildEntry gid with
              users := dictSet (defaultGuildEntry gid).users uid (defaultUserRow gid uid name) } := by
        rw [dictGet_mapAtKey]
        simp [hdg1]
      simp only [insert_user, hn, Bool.false_eq_true, if_false,
        get_user_absent_ok uid hc hdg]
      rw [get_user_present uid true (by simpa using hc) hpresent]
      exact hwrite
  · have hn : s.conn.isNone = true := by cases hcc : s.conn <;> simp_all
    simpa [insert_user, hn] using h

theorem synced_update_user {s : SysState} (h : synced s) (gid uid : Int) (f : UserFields) :
    synced (update_user s gid uid f true true).2 := by
  by_cases hc : s.conn.isSome
  · have hn : s.conn.isNone = false := by cases hcc : s.conn <;> simp_all
    cases hdg : dictGet s.cache gid with
    | some e =>
      cases hdu : dictGet e.users uid with
      | none =>
        simp only [update_user, hn, Bool.false_eq_true, if_false,
          get_user_present uid true hc hdg, hdu]
        exact h
      | some u =>
        simp only [update_user, hn, Bool.false_eq_true, if_false,
          get_user_present uid true hc hdg, hdu]
        by_cases hf : f = {}
        · simpa [hf] using h
        · simpa [hf] using synced_user_update_write h gid uid f
    | none =>
      have hs1 := synced_insert_guild h gid
      rw [insert_guild_fresh_ok hc hdg] at hs1
      simp only [update_user, hn, Bool.false_eq_true, if_false,
        get_user_absent_ok uid hc hdg]
      exact hs1
  · have hn : s.conn.isNone = true := by cases hcc : s.conn <;> simp_all
    simpa [update_user, hn] using h

theorem synced_runOp {s : SysState} (h : synced s) (op : Op) : synced (runOp s op) := by
  cases op with
  | insertGuild gid => exact synced_insert_guild h gid
  | updateGuild gid f => exact synced_update_guild h gid f
  | getUser gid uid => exact synced_get_user h gid uid
  | insertUser gid uid name => exact synced_insert_user h gid uid name
  | updateUser gid uid f => exact synced_update_user h gid uid f

theorem synced_runOps {s : SysState} (h : synced s) (ops : List Op) :
    synced (runOps s ops) := by
  induction ops generalizing s with
  | nil => exact h
  | cons op rest ih => exact ih (synced_runOp h op)

end Preservation

section UpdateCharacterization

/-- `update_guild` with no supplied fields on a cached guild is a pure no-op
(regardless of the storage oracles, which are never consulted). -/
theorem update_guild_noop {s : SysState} {gid : Int} {e : GuildEntry} (w1 w2 : Bool)
    (hc : s.conn.isSome) (he : dictGet s.cache gid = some e) :
    update_guild s gid {} w1 w2 = (.ok none, s) := by
  have hn : s.conn.isNone = false := by cases h : s.conn <;> simp_all
  simp [update_guild, hn, insert_guild_present w1 hc he]

/-- `update_guild` with supplied fields on a cached guild applies exactly those
fields to the cached dict and to the matching store rows. -/
theorem update_guild_present {s : SysState} {gid : Int} {e : GuildEntry} (f : GuildFields)
    (w1 : Bool) (hc : s.conn.isSome) (he : dictGet s.cache gid = some e) (hf : ¬ f = {}) :
    update_guild s gid f w1 true =
      (.ok (some f),
        { s with cache := mapAtKey s.cache gid (fun e => applyGuildFields e f),
                 db := { s.db with guilds := (s.db.guilds.map
                   (fun r => if r.guild_id = gid then applyGuildRow r f else r)) } }) := by
  have hn : s.conn.isNone = false := by cases h : s.conn <;> simp_all
  simp [update_guild, hn, insert_guild_present w1 hc he, hf]

/-- `update_guild` whose `UPDATE` statement fails has already mutated the
cached dict; the store is untouched. -/
theorem update_guild_present_fail {s : SysState} {gid : Int} {e : GuildEntry} (f : GuildFields)
    (w1 : Bool) (hc : s.conn.isSome) (he : dictGet s.cache gid = some e) (hf : ¬ f = {}) :
    update_guild s gid f w1 false =
      (.error .storageUnavailable,
        { s with cache := mapAtKey s.cache gid (fun e => applyGuildFields e f) }) := by
  have hn : s.conn.isNone = false := by cases h : s.conn <;> simp_all
  simp [update_guild, hn, insert_guild_present w1 hc he, hf]

/-- `update_user` for a member with no cached profile under a cached guild is
a pure no-op. -/
theorem update_user_absent {s : SysState} {gid uid : Int} {e : GuildEntry} (f : UserFields)
    (w1 w2 : Bool) (hc : s.conn.isSome) (he : dictGet s.cache gid = some e)
    (hu : dictGet e.users uid = none) :
    update_user s gid uid f w1 w2 = (.ok none, s) := by
  have hn : s.conn.isNone = false := by cases h : s.conn <;> simp_all
  simp [update_user, hn, get_user_present uid w1 hc he, hu]

/-- `update_user` with supplied fields on an existing profile applies exactly
those fields to the cached dict and to the matching store rows. -/
theorem update_user_present {s : SysState} {gid uid : Int} {e : GuildEntry} {u : UserRow}
    (f : UserFields) (w1 : Bool) (hc : s.conn.isSome) (he : dictGet s.cache gid = some e)
    (hu : dictGet e.users uid = some u) (hf : ¬ f = {}) :
    update_user s gid uid f w1 true =
      (.ok (some f),
        { s with
          cache := mapAtKey s.cache gid
            (fun e => { e with users := mapAtKey e.users uid (fun u => applyUserFields u f) }),
          db := { s.db with users := (s.db.users.map
            (fun r => if r.guild_id = gid ∧ r.user_id = uid then applyUserRow r f else r)) } }) := by
  have hn : s.conn.isNone = false := by cases h : s.conn <;> simp_all
  simp [update_user, hn, get_user_present uid w1 hc he, hu, hf]

/-- `update_user` whose `UPDATE` statement fails has already mutated the
cached profile; the store is untouched. -/
theorem update_user_present_fail {s : SysState} {gid uid : Int} {e : GuildEntry} {u : UserRow}
    (f : UserFields) (w1 : Bool) (hc : s.conn.isSome) (he : dictGet s.cache gid = some e)
    (hu : dictGet e.users uid = some u) (hf : ¬ f = {}) :
    update_user s gid uid f w1 false =
      (.error .storageUnavailable,
        { s with cache := (mapAtKey s.cache gid
          (fun e => { e with users := mapAtKey e.users uid (fun u => applyUserFields u f) })) }) := by
  have hn : s.conn.isNone = false := by cases h : s.conn <;> simp_all
  simp [update_user, hn, get_user_present uid w1 hc he, hu, hf]

/-- `insert_user` for an already cached profile is a pure no-op. -/
theorem insert_user_present {s : SysState} {gid uid : Int} {e : GuildEntry} {u : UserRow}
    (name : String) (w1 w2 : Bool) (hc : s.conn.isSome)
    (he : dictGet s.cache gid = some e) (hu : dictGet e.users uid = some u) :
    insert_user s gid uid name w1 w2 = (.ok none, s) := by
  have hn : s.conn.isNone = false := by cases h : s.conn <;> simp_all
  simp [insert_user, hn, get_user_present uid w1 hc he, hu]

/-- `insert_user` for a fresh member under a cached guild caches and persists
the default profile and returns it. -/
theorem insert_user_fresh_ok {s : SysState} {gid uid : Int} {e : GuildEntry}
    (name : String) (w1 : Bool) (hc : s.conn.isSome)
    (he : dictGet s.cache gid = some e) (hu : dictGet e.users uid = none) :
    insert_user s gid uid name w1 true =
      (.ok (some (defaultUserRow gid uid name)),
        { s with
          cache := mapAtKey s.cache gid
            (fun e2 => { e2 with users := dictSet e2.users uid (defaultUserRow gid uid name) }),
          db := { s.db with users := s.db.users ++ [defaultUserRow gid uid name] } }) := by
  have hn : s.conn.isNone = false := by cases h : s.conn <;> simp_all
  have hpresent : dictGet (mapAtKey s.cache gid
      (fun e2 => { e2 with users := dictSet e2.users uid (defaultUserRow gid uid name) })) gid
      = some { e with users := dictSet e.users uid (defaultUserRow gid uid name) } := by
    rw [dictGet_mapAtKey]
    simp [he]
  simp only [insert_user, hn, Bool.false_eq_true, if_false,
    get_user_present uid w1 hc he, hu]
  rw [get_user_present uid true (by simpa using hc) hpresent]
  rw [dictGet_dictSet]
  simp

/-- `insert_user` for a fresh member whose `INSERT` fails has already stored
the profile into the cache; the store is untouched. -/
theorem insert_user_fresh_fail {s : SysState} {gid uid : Int} {e : GuildEntry}
    (name : String) (w1 : Bool) (hc : s.conn.isSome)
    (he : dictGet s.cache gid = some e) (hu : dictGet e.users uid = none) :
    insert_user s gid uid name w1 false =
      (.error .storageUnavailable,
        { s with cache := (mapAtKey s.cache gid
          (fun e2 => { e2 with users := dictSet e2.users uid (defaultUserRow gid uid name) })) }) := by
  have hn : s.conn.isNone = false := by cases h : s.conn <;> simp_all
  simp [insert_user, hn, get_user_present uid w1 hc he, hu]

end UpdateCharacterization

section GuardLemmas

/-- `get_user` on an uncached guild whose lazy insert fails propagates the
storage failure, with the guild already cached. -/
theorem get_user_absent_fail {s : SysState} {gid : Int} (uid : Int)
    (hc : s.conn.isSome) (hg : dictGet s.cache gid = none) :
    get_user s gid uid false =
      (.error .storageUnavailable,
        { s with cache := dictSet s.cache gid (defaultGuildEntry gid) }) := by
  have hn : s.conn.isNone = false := by cases h : s.conn <;> simp_all
  simp [get_user, hn, hg, insert_guild_fresh_fail hc hg]

/-- `insert_user` on an uncached guild first performs the guild's lazy insert
and then proceeds exactly as from the guild-inserted state. -/
theorem insert_user_absent_guild {s : SysState} {gid uid : Int} (name : String) (w2 : Bool)
    (hc : s.conn.isSome) (hg : dictGet s.cache gid = none) :
    insert_user s gid uid name true w2 =
      insert_user
        { s with cache := dictSet s.cache gid (defaultGuildEntry gid),
                 db := { s.db with guilds := s.db.guilds ++ [defaultGuildRow gid] } }
        gid uid name true w2 := by
  have hn : s.conn.isNone = false := by cases h : s.conn <;> simp_all
  have hdg1 : dictGet (dictSet s.cache gid (defaultGuildEntry gid)) gid
      = some (defaultGuildEntry gid) := by rw [dictGet_dictSet]; simp
  simp only [insert_user, hn, Bool.false_eq_true, if_false,
    get_user_absent_ok uid hc hg]
  rw [get_user_present
    (s := { s with cache := dictSet s.cache gid (defaultGuildEntry gid),
                   db := { s.db with guilds := s.db.guilds ++ [defaultGuildRow gid] } })
    uid true hc hdg1]
  rfl

/-- `insert_user` on an uncached guild whose lazy guild insert fails
propagates the failure with only the guild cached. -/
theorem insert_user_absent_guild_fail {s : SysState} {gid uid : Int} (name : String)
    (w2 : Bool) (hc : s.conn.isSome) (hg : dictGet s.cache gid = none) :
    insert_user s gid uid name false w2 =
      (.error .storageUnavailable,
        { s with cache := dictSet s.cache gid (defaultGuildEntry gid) }) := by
  have hn : s.conn.isNone = false := by cases h : s.conn <;> simp_all
  simp [insert_user, hn, get_user_absent_fail uid hc hg]

/-- `update_guild` on an uncached guild first performs the guild's lazy insert
and then proceeds exactly as from the guild-inserted state. -/
theorem update_guild_absent_guild {s : SysState} {gid : Int} (f : GuildFields) (w2 : Bool)
    (hc : s.conn.isSome) (hg : dictGet s.cache gid = none) :
    update_guild s gid f true w2 =
      update_guild
        { s with cache := dictSet s.cache gid (defaultGuildEntry gid),
                 db := { s.db with guilds := s.db.guilds ++ [defaultGuildRow gid] } }
        gid f true w2 := by
  have hn : s.conn.isNone = false := by cases h : s.conn <;> simp_all
  have hdg1 : dictGet (dictSet s.cache gid (defaultGuildEntry gid)) gid
      = some (defaultGuildEntry gid) := by rw [dictGet_dictSet]; simp
  simp only [update_guild, hn, Bool.false_eq_true, if_false,
    insert_guild_fresh_ok hc hg]
  rw [insert_guild_present
    (s := { s with cache := dictSet s.cache gid (defaultGuildEntry gid),
                   db := { s.db with guilds := s.db.guilds ++ [defaultGuildRow gid] } })
    true hc hdg1]

/-- `update_guild` on an uncached guild whose lazy guild insert fails
propagates the failure with only the guild cached. -/
theorem update_guild_absent_guild_fail {s : SysState} {gid : Int} (f : GuildFields)
    (w2 : Bool) (hc : s.conn.isSome) (hg : dictGet s.cache gid = none) :
    update_guild s gid f false w2 =
      (.error .storageUnavailable,
        { s with cache := dictSet s.cache gid (defaultGuildEntry gid) }) := by
  have hn : s.conn.isNone = false := by cases h : s.conn <;> simp_all
  simp [update_guild, hn, insert_guild_fresh_fail hc hg]

/-- `update_user` with no supplied fields on an existing profile is a pure
no-op. -/
theorem update_user_noop {s : SysState} {gid uid : Int} {e : GuildEntry} {u : UserRow}
    (w1 w2 : Bool) (hc : s.conn.isSome) (he : dictGet s.cache gid = some e)
    (hu : dictGet e.users uid = some u) :
    update_user s gid uid {} w1 w2 = (.ok none, s) := by
  have hn : s.conn.isNone = false := by cases h : s.conn <;> simp_all
  simp [update_user, hn, get_user_present uid w1 hc he, hu]

/-- `update_user` on an uncached guild lazily inserts the guild and returns
the not-found no-op signal. -/
theorem update_user_absent_fresh {s : SysState} {gid uid : Int} (f : UserFields)
    (w2 : Bool) (hc : s.conn.isSome) (hg : dictGet s.cache gid = none) :
    update_user s gid uid f true w2 =
      (.ok none,
        { s with cache := dictSet s.cache gid (defaultGuildEntry gid),
                 db := { s.db with guilds := s.db.guilds ++ [defaultGuildRow gid] } }) := by
  have hn : s.conn.isNone = false := by cases h : s.conn <;> simp_all
  simp [update_user, hn, get_user_absent_ok uid hc hg]

/-- `update_user` on an uncached guild whose lazy guild insert fails
propagates the failure with only the guild cached. -/
theorem update_user_absent_fresh_fail {s : SysState} {gid uid : Int} (f : UserFields)
    (w2 : Bool) (hc : s.conn.isSome) (hg : dictGet s.cache gid = none) :
    update_user s gid uid f false w2 =
      (.error .storageUnavailable,
        { s with cache := dictSet s.cache gid (defaultGuildEntry gid) }) := by
  have hn : s.conn.isNone = false := by cases h : s.conn <;> simp_all
  simp [update_user, hn, get_user_absent_fail uid hc hg]

/-- No operation resets or replaces the stored handle: `insert_guild`. -/
theorem insert_guild_conn (s : SysState) (gid : Int) (w : Bool) :
    (insert_guild s gid w).2.conn = s.conn := by
  unfold insert_guild
  split
  · rfl
  · split
    · rfl
    · split
      · rfl
      · rfl

/-- A connected `insert_guild` can only fail with `storageUnavailable`. -/
theorem insert_guild_error {s s' : SysState} {gid : Int} {w : Bool} {e : Err}
    (hc : s.conn.isSome) (h : insert_guild s gid w = (.error e, s')) :
    e = .storageUnavailable := by
  cases hdg : dictGet s.cache gid with
  | some g =>
    rw [insert_guild_present w hc hdg] at h
    simp at h
  | none =>
    cases w with
    | true =>
      rw [insert_guild_fresh_ok hc hdg] at h
      simp at h
    | false =>
      rw [insert_guild_fresh_fail hc hdg] at h
      simp at h
      exact h.1.symm

/-- A connected `get_user` can only fail with `storageUnavailable`. -/
theorem get_user_error {s s' : SysState} {gid uid : Int} {w : Bool} {e : Err}
    (hc : s.conn.isSome) (h : get_user s gid uid w = (.error e, s')) :
    e = .storageUnavailable := by
  cases hdg : dictGet s.cache gid with
  | some g =>
    rw [get_user_present uid w hc hdg] at h
    simp at h
  | none =>
    cases w with
    | true =>
      rw [get_user_absent_ok uid hc hdg] at h
      simp at h
    | false =>
      rw [get_user_absent_fail uid hc hdg] at h
      simp at h
      exact h.1.symm

/-- A connected `update_guild` can only fail with `storageUnavailable`. -/
theorem update_guild_error {s s' : SysState} {gid : Int} {f : GuildFields}
    {w1 w2 : Bool} {e : Err}
    (hc : s.conn.isSome) (h : update_guild s gid f w1 w2 = (.error e, s')) :
    e = .storageUnavailable := by
  have main : ∀ (t : SysState) (t' : SysState) (g : GuildEntry), t.conn.isSome →
      dictGet t.cache gid = some g → update_guild t gid f w1 w2 = (.error e, t') →
      e = .storageUnavailable := by
    intro t t' g hct hdg ht
    by_cases hf : f = {}
    · subst hf
      rw [update_guild_noop w1 w2 hct hdg] at ht
      simp at ht
    · cases w2 with
      | true =>
        cases w1 with
        | true =>
          rw [update_guild_present f true hct hdg hf] at ht
          simp at ht
        | false =>
          rw [update_guild_present f false hct hdg hf] at ht
          simp at ht
      | false =>
        cases w1 with
        | true =>
          rw [update_guild_present_fail f true hct hdg hf] at ht
          simp at ht
          exact ht.1.symm
        | false =>
          rw [update_guild_present_fail f false hct hdg hf] at ht
          simp at ht
          exact ht.1.symm
  cases hdg : dictGet s.cache gid with
  | some g => exact main s s' g hc hdg h
  | none =>
    cases w1 with
    | false =>
      rw [update_guild_absent_guild_fail f w2 hc hdg] at h
      simp at h
      exact h.1.symm
    | true =>
      rw [update_guild_absent_guild f w2 hc hdg] at h
      refine main _ s' (defaultGuildEntry gid) (by simpa using hc) ?_ h
      rw [dictGet_dictSet]
      simp

/-- A connected `insert_user` can only fail with `storageUnavailable`. -/
theorem insert_user_error {s s' : SysState} {gid uid : Int} {name : String}
    {w1 w2 : Bool} {e : Err}
    (hc : s.conn.isSome) (h : insert_user s gid uid name w1 w2 = (.error e, s')) :
    e = .storageUnavailable := by
  have main : ∀ (t : SysState) (t' : SysState) (g : GuildEntry), t.conn.isSome →
      dictGet t.cache gid = some g → insert_user t gid uid name w1 w2 = (.error e, t') →
      e = .storageUnavailable := by
    intro t t' g hct hdg ht
    cases hdu : dictGet g.users uid with
    | some u =>
      rw [insert_user_present name w1 w2 hct hdg hdu] at ht
      simp at ht
    | none =>
      cases w2 with
      | true =>
        rw [insert_user_fresh_ok name w1 hct hdg hdu] at ht
        simp at ht
      | false =>
        rw [insert_user_fresh_fail name w1 hct hdg hdu] at ht
        simp at ht
        exact ht.1.symm
  cases hdg : dictGet s.cache gid with
  | some g => exact main s s' g hc hdg h
  | none =>
    cases w1 with
    | false =>
      rw [insert_user_absent_guild_fail name w2 hc hdg] at h
      simp at h
      exact h.1.symm
    | true =>
      rw [insert_user_absent_guild name w2 hc hdg] at h
      refine main _ s' (defaultGuildEntry gid) (by simpa using hc) ?_ h
      rw [dictGet_dictSet]
      simp

/-- A connected `update_user` can only fail with `storageUnavailable`. -/
theorem update_user_error {s s' : SysState} {gid uid : Int} {f : UserFields}
    {w1 w2 : Bool} {e : Err}
    (hc : s.conn.isSome) (h : update_user s gid uid f w1 w2 = (.error e, s')) :
    e = .storageUnavailable := by
  cases hdg : dictGet s.cache gid with
  | some g =>
    cases hdu : dictGet g.users uid with
    | none =>
      rw [update_user_absent f w1 w2 hc hdg hdu] at h
      simp at h
    | some u =>
      by_cases hf : f = {}
      · subst hf
        rw [update_user_noop w1 w2 hc hdg hdu] at h
        simp at h
      · cases w2 with
        | true =>
          cases w1 with
          | true =>
            rw [update_user_present f true hc hdg hdu hf] at h
            simp at h
          | false =>
            rw [update_user_present f false hc hdg hdu hf] at h
            simp at h
        | false =>
          cases w1 with
          | true =>
            rw [update_user_present_fail f true hc hdg hdu hf] at h
            simp at h
            exact h.1.symm
          | false =>
            rw [update_user_present_fail f false hc hdg hdu hf] at h
            simp at h
            exact h.1.symm
  | none =>
    cases w1 with
    | false =>
      rw [update_user_absent_fresh_fail f w2 hc hdg] at h
      simp at h
      exact h.1.symm
    | true =>
      rw [update_user_absent_fresh f w2 hc hdg] at h
      simp at h

end GuardLemmas

section Claims

/-- C8: every data operation (`close`, `load_cache`/hydrate, `get_guild`,
`insert_guild`, `update_guild`, `get_user`, `insert_user`, `update_user`)
invoked before `open()` succeeded fails with the NotConnected condition and
leaves cache and backing store untouched; in particular `close()` itself fails
with NotConnected before `open()`. -/
theorem C8_not_connected_guard (s : SysState) (h : s.conn = none) (gid uid : Int)
    (gf : GuildFields) (uf : UserFields) (name : String) (w1 w2 : Bool) :
    close s = (.error .notConnected, s) ∧
    load_cache s = (.error .notConnected, s) ∧
    get_guild s gid = .error .notConnected ∧
    insert_guild s gid w1 = (.error .notConnected, s) ∧
    update_guild s gid gf w1 w2 = (.error .notConnected, s) ∧
    get_user s gid uid w1 = (.error .notConnected, s) ∧
    insert_user s gid uid name w1 w2 = (.error .notConnected, s) ∧
    update_user s gid uid uf w1 w2 = (.error .notConnected, s) := by
  have hn : s.conn.isNone = true := by simp [h]
  refine ⟨?_, ?_, ?_, ?_, ?_, ?_, ?_, ?_⟩ <;>
    simp [close, load_cache, get_guild, insert_guild, update_guild, get_user,
      insert_user, update_user, hn, h]

/-- Witness for C8 at a concrete unopened manager state. -/
theorem C8_witness :
    (({ cache := [], conn := none, schemaRuns := 0, db := DB.empty } : SysState).conn
        = none) ∧
    (close { cache := [], conn := none, schemaRuns := 0, db := DB.empty }
        = (.error .notConnected, { cache := [], conn := none, schemaRuns := 0, db := DB.empty }) ∧
     load_cache { cache := [], conn := none, schemaRuns := 0, db := DB.empty }
        = (.error .notConnected, { cache := [], conn := none, schemaRuns := 0, db := DB.empty }) ∧
     get_guild { cache := [], conn := none, schemaRuns := 0, db := DB.empty } 1
        = .error .notConnected ∧
     insert_guild { cache := [], conn := none, schemaRuns := 0, db := DB.empty } 1 true
        = (.error .notConnected, { cache := [], conn := none, schemaRuns := 0, db := DB.empty }) ∧
     update_guild { cache := [], conn := none, schemaRuns := 0, db := DB.empty } 1 {} true true
        = (.error .notConnected, { cache := [], conn := none, schemaRuns := 0, db := DB.empty }) ∧
     get_user { cache := [], conn := none, schemaRuns := 0, db := DB.empty } 1 2 true
        = (.error .notConnected, { cache := [], conn := none, schemaRuns := 0, db := DB.empty }) ∧
     insert_user { cache := [], conn := none, schemaRuns := 0, db := DB.empty } 1 2 "Alice" true true
        = (.error .notConnected, { cache := [], conn := none, schemaRuns := 0, db := DB.empty }) ∧
     update_user { cache := [], conn := none, schemaRuns := 0, db := DB.empty } 1 2 {} true true
        = (.error .notConnected, { cache := [], conn := none, schemaRuns := 0, db := DB.empty })) :=
  ⟨rfl, C8_not_connected_guard _ rfl 1 2 {} {} "Alice" true true⟩

/-- C10 (implicit): `close()` never resets the stored handle, so after a
successful `close()` the handle stays non-absent, every data operation still
passes the connected-guard (never NotConnected again), `close()` can run a
second time, and a later `connect()` returns the already-closed handle
unchanged, without reopening or re-running the schema bootstrap. -/
theorem C10_close_keeps_handle (s : SysState) (c : Conn) (h : s.conn = some c)
    (gid uid : Int) (gf : GuildFields) (uf : UserFields) (name : String) (w1 w2 : Bool) :
    (close s).1 = .ok () ∧
    (close s).2.conn = some { c with closed := true } ∧
    (close (close s).2).1 = .ok () ∧
    connect (close s).2 = ({ c with closed := true }, (close s).2) ∧
    (close s).2.schemaRuns = s.schemaRuns ∧
    get_guild (close s).2 gid ≠ .error .notConnected ∧
    (load_cache (close s).2).1 ≠ .error .notConnected ∧
    (insert_guild (close s).2 gid w1).1 ≠ .error .notConnected ∧
    (get_user (close s).2 gid uid w1).1 ≠ .error .notConnected ∧
    (update_guild (close s).2 gid gf w1 w2).1 ≠ .error .notConnected ∧
    (insert_user (close s).2 gid uid name w1 w2).1 ≠ .error .notConnected ∧
    (update_user (close s).2 gid uid uf w1 w2).1 ≠ .error .notConnected := by
  have hcl : close s = (.ok (), { s with conn := some { c with closed := true } }) := by
    simp [close, h]
  rw [hcl]
  have hc1 : ({ s with conn := some { c with closed := true } } : SysState).conn.isSome :=
    rfl
  refine ⟨rfl, rfl, by simp [close], by simp [connect], rfl, ?_, ?_, ?_, ?_, ?_, ?_, ?_⟩
  · simp [get_guild]
  · simp [load_cache]
  · intro hx
    exact Err.noConfusion (insert_guild_error hc1 (Prod.ext hx rfl))
  · intro hx
    exact Err.noConfusion (get_user_error hc1 (Prod.ext hx rfl))
  · intro hx
    exact Err.noConfusion (update_guild_error hc1 (Prod.ext hx rfl))
  · intro hx
    exact Err.noConfusion (insert_user_error hc1 (Prod.ext hx rfl))
  · intro hx
    exact Err.noConfusion (update_user_error hc1 (Prod.ext hx rfl))

/-- Witness for C10 at the freshly connected empty state. -/
theorem C10_witness :
    (initState.conn = some ⟨false⟩) ∧
    ((close initState).1 = .ok () ∧
     (close initState).2.conn = some { closed := true } ∧
     (close (close initState).2).1 = .ok () ∧
     connect (close initState).2 = ({ closed := true }, (close initState).2) ∧
     (close initState).2.schemaRuns = initState.schemaRuns ∧
     get_guild (close initState).2 1 ≠ .error .notConnected ∧
     (load_cache (close initState).2).1 ≠ .error .notConnected ∧
     (insert_guild (close initState).2 1 true).1 ≠ .error .notConnected ∧
     (get_user (close initState).2 1 2 true).1 ≠ .error .notConnected ∧
     (update_guild (close initState).2 1 {} true true).1 ≠ .error .notConnected ∧
     (insert_user (close initState).2 1 2 "Alice" true true).1 ≠ .error .notConnected ∧
     (update_user (close initState).2 1 2 {} true true).1 ≠ .error .notConnected) :=
  ⟨rfl, C10_close_keeps_handle initState ⟨false⟩ rfl 1 2 {} {} "Alice" true true⟩

/-- C9: a profile can only be cached under an existing tenant entry: any
cached profile lookup witnesses its tenant's entry, and `insert_user` on an
uncached tenant first ensures the tenant entry, ending with the profile nested
under the now-present tenant. -/
theorem C9_profile_implies_tenant (s : SysState) (gid uid : Int) (hc : s.conn.isSome) :
    (∀ u, cachedProfile s gid uid = some u →
      ∃ e, dictGet s.cache gid = some e ∧ dictGet e.users uid = some u) ∧
    (dictGet s.cache gid = none → ∀ name,
      ∃ e, dictGet (insert_user s gid uid name true true).2.cache gid = some e ∧
        dictGet e.users uid = some (defaultUserRow gid uid name)) := by
  constructor
  · intro u hu
    unfold cachedProfile at hu
    cases hdg : dictGet s.cache gid with
    | none => rw [hdg] at hu; simp at hu
    | some e =>
      rw [hdg] at hu
      simp only [Option.some_bind] at hu
      exact ⟨e, rfl, hu⟩
  · intro hg name
    rw [insert_user_absent_guild name true hc hg]
    have hdg1 : dictGet (dictSet s.cache gid (defaultGuildEntry gid)) gid
        = some (defaultGuildEntry gid) := by rw [dictGet_dictSet]; simp
    rw [insert_user_fresh_ok
      (s := { s with cache := dictSet s.cache gid (defaultGuildEntry gid),
                     db := { s.db with guilds := s.db.guilds ++ [defaultGuildRow gid] } })
      name true hc hdg1 (show dictGet (defaultGuildEntry gid).users uid = none from rfl)]
    refine ⟨{ defaultGuildEntry gid with
      users := dictSet (defaultGuildEntry gid).users uid (defaultUserRow gid uid name) }, ?_, ?_⟩
    · dsimp only
      rw [dictGet_mapAtKey]
      simp [hdg1]
    · rw [dictGet_dictSet]
      simp

/-- Witness for C9 at the freshly connected empty state. -/
theorem C9_witness :
    (initState.conn.isSome = true) ∧
    ((∀ u, cachedProfile initState 1 2 = some u →
       ∃ e, dictGet initState.cache 1 = some e ∧ dictGet e.users 2 = some u) ∧
     (dictGet initState.cache 1 = none → ∀ name,
       ∃ e, dictGet (insert_user initState 1 2 name true true).2.cache 1 = some e ∧
         dictGet e.users 2 = some (defaultUserRow 1 2 name))) :=
  ⟨rfl, C9_profile_implies_tenant initState 1 2 rfl⟩

/-- C4: `insert_guild` on a fresh tenant returns a freshly created record
whose four configuration fields are all 0, and a second `insert_guild` for the
same tenant returns the no-op signal `none` instead of the record, leaving the
state unchanged. -/
theorem C4_ensure_tenant (s : SysState) (gid : Int)
    (hc : s.conn.isSome) (hg : dictGet s.cache gid = none) :
    (insert_guild s gid true).1 = .ok (some (defaultGuildEntry gid)) ∧
    (defaultGuildEntry gid).vc_queues_category = 0 ∧
    (defaultGuildEntry gid).vc_matches_category = 0 ∧
    (defaultGuildEntry gid).scorer_role_id = 0 ∧
    (defaultGuildEntry gid).log_channel = 0 ∧
    ∀ w : Bool, insert_guild (insert_guild s gid true).2 gid w
      = (.ok none, (insert_guild s gid true).2) := by
  rw [insert_guild_fresh_ok hc hg]
  refine ⟨rfl, rfl, rfl, rfl, rfl, ?_⟩
  intro w
  dsimp only
  refine insert_guild_present (e := defaultGuildEntry gid) w hc ?_
  rw [dictGet_dictSet]
  simp

/-- Witness for C4 at the freshly connected empty state. -/
theorem C4_witness :
    (initState.conn.isSome = true ∧ dictGet initState.cache 1 = none) ∧
    ((insert_guild initState 1 true).1 = .ok (some (defaultGuildEntry 1)) ∧
     (defaultGuildEntry 1).vc_queues_category = 0 ∧
     (defaultGuildEntry 1).vc_matches_category = 0 ∧
     (defaultGuildEntry 1).scorer_role_id = 0 ∧
     (defaultGuildEntry 1).log_channel = 0 ∧
     ∀ w : Bool, insert_guild (insert_guild initState 1 true).2 1 w
       = (.ok none, (insert_guild initState 1 true).2)) :=
  ⟨⟨rfl, rfl⟩, C4_ensure_tenant initState 1 rfl rfl⟩

/-- C5: `insert_user` on a fresh (tenant, member) pair returns a created
record with rating 0, ban flag 0, wins 0, losses 0 and the given display name;
repeating the call returns the no-op signal without changing the state, and
the stored display name is unchanged by the repeated call. -/
theorem C5_ensure_profile (s : SysState) (gid uid : Int) (name : String)
    (hc : s.conn.isSome) (hu : cachedProfile s gid uid = none) :
    (insert_user s gid uid name true true).1 = .ok (some (defaultUserRow gid uid name)) ∧
    (defaultUserRow gid uid name).elo = 0 ∧
    (defaultUserRow gid uid name).banned = 0 ∧
    (defaultUserRow gid uid name).wins = 0 ∧
    (defaultUserRow gid uid name).losses = 0 ∧
    (defaultUserRow gid uid name).username = name ∧
    (∀ w1 w2 : Bool, insert_user (insert_user s gid uid name true true).2 gid uid name w1 w2
      = (.ok none, (insert_user s gid uid name true true).2)) ∧
    (cachedProfile (insert_user s gid uid name true true).2 gid uid).map (fun u => u.username)
      = some name := by
  have main : ∀ (t : SysState) (e : GuildEntry), t.conn.isSome →
      dictGet t.cache gid = some e → dictGet e.users uid = none →
      (insert_user t gid uid name true true).1 = .ok (some (defaultUserRow gid uid name)) ∧
      (∀ w1 w2 : Bool, insert_user (insert_user t gid uid name true true).2 gid uid name w1 w2
        = (.ok none, (insert_user t gid uid name true true).2)) ∧
      (cachedProfile (insert_user t gid uid name true true).2 gid uid).map (fun u => u.username)
        = some name := by
    intro t e hct he hdu
    rw [insert_user_fresh_ok name true hct he hdu]
    have he2 : dictGet (mapAtKey t.cache gid
        (fun e2 => { e2 with users := dictSet e2.users uid (defaultUserRow gid uid name) })) gid
        = some { e with users := dictSet e.users uid (defaultUserRow gid uid name) } := by
      rw [dictGet_mapAtKey]
      simp [he]
    have hu2 : dictGet (dictSet e.users uid (defaultUserRow gid uid name)) uid
        = some (defaultUserRow gid uid name) := by
      rw [dictGet_dictSet]
      simp
    refine ⟨rfl, ?_, ?_⟩
    · intro w1 w2
      exact insert_user_present name w1 w2 hct he2 hu2
    · simp only [cachedProfile]
      rw [he2]
      simp only [Option.some_bind]
      rw [hu2]
      rfl
  cases hdg : dictGet s.cache gid with
  | some e =>
    have hdu : dictGet e.users uid = none := by
      unfold cachedProfile at hu
      rw [hdg] at hu
      simpa using hu
    obtain ⟨h1, h2, h3⟩ := main s e hc hdg hdu
    exact ⟨h1, rfl, rfl, rfl, rfl, rfl, h2, h3⟩
  | none =>
    rw [insert_user_absent_guild name true hc hdg]
    have hdg1 : dictGet (dictSet s.cache gid (defaultGuildEntry gid)) gid
        = some (defaultGuildEntry gid) := by rw [dictGet_dictSet]; simp
    obtain ⟨h1, h2, h3⟩ := main
      { s with cache := dictSet s.cache gid (defaultGuildEntry gid),
               db := { s.db with guilds := s.db.guilds ++ [defaultGuildRow gid] } }
      (defaultGuildEntry gid) hc hdg1 rfl
    exact ⟨h1, rfl, rfl, rfl, rfl, rfl, h2, h3⟩

/-- Witness for C5 at the freshly connected empty state. -/
theorem C5_witness :
    (initState.conn.isSome = true ∧ cachedProfile initState 1 2 = none) ∧
    ((insert_user initState 1 2 "Alice" true true).1
        = .ok (some (defaultUserRow 1 2 "Alice")) ∧
     (defaultUserRow 1 2 "Alice").elo = 0 ∧
     (defaultUserRow 1 2 "Alice").banned = 0 ∧
     (defaultUserRow 1 2 "Alice").wins = 0 ∧
     (defaultUserRow 1 2 "Alice").losses = 0 ∧
     (defaultUserRow 1 2 "Alice").username = "Alice" ∧
     (∀ w1 w2 : Bool,
        insert_user (insert_user initState 1 2 "Alice" true true).2 1 2 "Alice" w1 w2
          = (.ok none, (insert_user initState 1 2 "Alice" true true).2)) ∧
     (cachedProfile (insert_user initState 1 2 "Alice" true true).2 1 2).map
        (fun u => u.username) = some "Alice") :=
  ⟨⟨rfl, rfl⟩, C5_ensure_profile initState 1 2 "Alice" rfl rfl⟩

/-- C6: `update_guild` and `update_user` apply only the explicitly supplied
fields: updating only the scorer-role reference sets exactly that field in the
cached dict (the other three keep their prior values) and maps each store row
to one differing only in that column; likewise for a profile's rating. -/
theorem C6_partial_update (s : SysState) (gid uid : Int) (e : GuildEntry) (u : UserRow)
    (v w : Int) (hc : s.conn.isSome) (he : dictGet s.cache gid = some e)
    (hu : dictGet e.users uid = some u) :
    (update_guild s gid { scorer_role_id := some v } true true).1
      = .ok (some ({ scorer_role_id := some v } : GuildFields)) ∧
    get_guild (update_guild s gid { scorer_role_id := some v } true true).2 gid
      = .ok (some { e with scorer_role_id := v }) ∧
    (update_guild s gid { scorer_role_id := some v } true true).2.db.guilds
      = s.db.guilds.map
          (fun r => if r.guild_id = gid then { r with scorer_role_id := v } else r) ∧
    (update_user s gid uid { elo := some w } true true).1
      = .ok (some ({ elo := some w } : UserFields)) ∧
    cachedProfile (update_user s gid uid { elo := some w } true true).2 gid uid
      = some { u with elo := w } ∧
    (update_user s gid uid { elo := some w } true true).2.db.users
      = s.db.users.map
          (fun r => if r.guild_id = gid ∧ r.user_id = uid then { r with elo := w } else r) := by
  have hgf : ¬ ({ scorer_role_id := some v } : GuildFields) = {} := by
    intro hx
    exact Option.noConfusion (congrArg GuildFields.scorer_role_id hx)
  have huf : ¬ ({ elo := some w } : UserFields) = {} := by
    intro hx
    exact Option.noConfusion (congrArg UserFields.elo hx)
  have hn2 : s.conn.isNone = false := by cases hcc : s.conn <;> simp_all
  rw [update_guild_present _ true hc he hgf, update_user_present _ true hc he hu huf]
  refine ⟨rfl, ?_, rfl, rfl, ?_, rfl⟩
  · simp only [get_guild, hn2, Bool.false_eq_true, if_false]
    simp [dictGet_mapAtKey, he, applyGuildFields]
  · simp only [cachedProfile]
    simp [dictGet_mapAtKey, he, hu, applyUserFields]

/-- Witness for C6 at a state with tenant 1 and profile (1, 2) cached and
persisted. -/
theorem C6_witness :
    (((insert_user (insert_guild initState 1 true).2 1 2 "Alice" true true).2.conn.isSome
        = true) ∧
     dictGet (insert_user (insert_guild initState 1 true).2 1 2 "Alice" true true).2.cache 1
        = some { defaultGuildEntry 1 with users := [(2, defaultUserRow 1 2 "Alice")] } ∧
     dictGet ({ defaultGuildEntry 1 with
        users := [(2, defaultUserRow 1 2 "Alice")] } : GuildEntry).users 2
        = some (defaultUserRow 1 2 "Alice")) ∧
    ((update_guild (insert_user (insert_guild initState 1 true).2 1 2 "Alice" true true).2 1
        { scorer_role_id := some 5 } true true).1
      = .ok (some ({ scorer_role_id := some 5 } : GuildFields)) ∧
     get_guild (update_guild (insert_user (insert_guild initState 1 true).2 1 2 "Alice" true true).2 1
        { scorer_role_id := some 5 } true true).2 1
      = .ok (some { { defaultGuildEntry 1 with users := [(2, defaultUserRow 1 2 "Alice")] }
          with scorer_role_id := 5 }) ∧
     (update_guild (insert_user (insert_guild initState 1 true).2 1 2 "Alice" true true).2 1
        { scorer_role_id := some 5 } true true).2.db.guilds
      = (insert_user (insert_guild initState 1 true).2 1 2 "Alice" true true).2.db.guilds.map
          (fun r => if r.guild_id = 1 then { r with scorer_role_id := 5 } else r) ∧
     (update_user (insert_user (insert_guild initState 1 true).2 1 2 "Alice" true true).2 1 2
        { elo := some 7 } true true).1
      = .ok (some ({ elo := some 7 } : UserFields)) ∧
     cachedProfile (update_user (insert_user (insert_guild initState 1 true).2 1 2 "Alice" true true).2 1 2
        { elo := some 7 } true true).2 1 2
      = some { defaultUserRow 1 2 "Alice" with elo := 7 } ∧
     (update_user (insert_user (insert_guild initState 1 true).2 1 2 "Alice" true true).2 1 2
        { elo := some 7 } true true).2.db.users
      = (insert_user (insert_guild initState 1 true).2 1 2 "Alice" true true).2.db.users.map
          (fun r => if r.guild_id = 1 ∧ r.user_id = 2 then { r with elo := 7 } else r)) :=
  ⟨⟨rfl, by decide, by decide⟩,
    C6_partial_update (insert_user (insert_guild initState 1 true).2 1 2 "Alice" true true).2
      1 2 { defaultGuildEntry 1 with users := [(2, defaultUserRow 1 2 "Alice")] }
      (defaultUserRow 1 2 "Alice") 5 7 rfl (by decide) (by decide)⟩

/-- C7: round-trip — every field value set through `update_guild` or
`update_user` and then read back through `get_guild` / `get_user` with no
intervening writes is exactly the value that was set. -/
theorem C7_round_trip (s : SysState) (gid uid : Int) (e : GuildEntry) (u : UserRow)
    (gf : GuildFields) (uf : UserFields) (hc : s.conn.isSome)
    (he : dictGet s.cache gid = some e) (hu : dictGet e.users uid = some u)
    (hgf : ¬ gf = {}) (huf : ¬ uf = {}) :
    (∃ e2, get_guild (update_guild s gid gf true true).2 gid = .ok (some e2) ∧
      (∀ v, gf.vc_queues_category = some v → e2.vc_queues_category = v) ∧
      (∀ v, gf.vc_matches_category = some v → e2.vc_matches_category = v) ∧
      (∀ v, gf.scorer_role_id = some v → e2.scorer_role_id = v) ∧
      (∀ v, gf.log_channel = some v → e2.log_channel = v)) ∧
    (∃ u2, (get_user (update_user s gid uid uf true true).2 gid uid true).1 = .ok (some u2) ∧
      (∀ v, uf.username = some v → u2.username = v) ∧
      (∀ v, uf.elo = some v → u2.elo = v) ∧
      (∀ v, uf.banned = some v → u2.banned = v) ∧
      (∀ v, uf.wins = some v → u2.wins = v) ∧
      (∀ v, uf.losses = some v → u2.losses = v)) := by
  have hn2 : s.conn.isNone = false := by cases hcc : s.conn <;> simp_all
  constructor
  · rw [update_guild_present gf true hc he hgf]
    refine ⟨applyGuildFields e gf, ?_, ?_, ?_, ?_, ?_⟩
    · simp only [get_guild, hn2, Bool.false_eq_true, if_false]
      rw [dictGet_mapAtKey]
      simp [he]
    · intro v hv
      simp [applyGuildFields, hv]
    · intro v hv
      simp [applyGuildFields, hv]
    · intro v hv
      simp [applyGuildFields, hv]
    · intro v hv
      simp [applyGuildFields, hv]
  · rw [update_user_present uf true hc he hu huf]
    have he2 : dictGet (mapAtKey s.cache gid
        (fun e => { e with users := mapAtKey e.users uid (fun u => applyUserFields u uf) })) gid
        = some { e with users := mapAtKey e.users uid (fun u => applyUserFields u uf) } := by
      rw [dictGet_mapAtKey]
      simp [he]
    rw [get_user_present
      (s := { s with
        cache := (mapAtKey s.cache gid
          (fun e => { e with users := mapAtKey e.users uid (fun u => applyUserFields u uf) })),
        db := { s.db with users := (s.db.users.map
          (fun r => if r.guild_id = gid ∧ r.user_id = uid then applyUserRow r uf else r)) } })
      uid true hc he2]
    refine ⟨applyUserFields u uf, ?_, ?_, ?_, ?_, ?_, ?_⟩
    · dsimp only
      rw [dictGet_mapAtKey]
      simp [hu]
    · intro v hv
      simp [applyUserFields, hv]
    · intro v hv
      simp [applyUserFields, hv]
    · intro v hv
      simp [applyUserFields, hv]
    · intro v hv
      simp [applyUserFields, hv]
    · intro v hv
      simp [applyUserFields, hv]

/-- Witness for C7 at a state with tenant 1 and profile (1, 2) cached and
persisted, setting the channel reference and the loss counter. -/
theorem C7_witness :
    (((insert_user (insert_guild initState 1 true).2 1 2 "Alice" true true).2.conn.isSome
        = true) ∧
     dictGet (insert_user (insert_guild initState 1 true).2 1 2 "Alice" true true).2.cache 1
        = some { defaultGuildEntry 1 with users := [(2, defaultUserRow 1 2 "Alice")] } ∧
     dictGet ({ defaultGuildEntry 1 with
        users := [(2, defaultUserRow 1 2 "Alice")] } : GuildEntry).users 2
        = some (defaultUserRow 1 2 "Alice") ∧
     ¬ ({ log_channel := some 9 } : GuildFields) = {} ∧
     ¬ ({ losses := some 3 } : UserFields) = {}) ∧
    ((∃ e2, get_guild (update_guild
          (insert_user (insert_guild initState 1 true).2 1 2 "Alice" true true).2 1
          { log_channel := some 9 } true true).2 1 = .ok (some e2) ∧
       (∀ v, ({ log_channel := some 9 } : GuildFields).vc_queues_category = some v →
          e2.vc_queues_category = v) ∧
       (∀ v, ({ log_channel := some 9 } : GuildFields).vc_matches_category = some v →
          e2.vc_matches_category = v) ∧
       (∀ v, ({ log_channel := some 9 } : GuildFields).scorer_role_id = some v →
          e2.scorer_role_id = v) ∧
       (∀ v, ({ log_channel := some 9 } : GuildFields).log_channel = some v →
          e2.log_channel = v)) ∧
     (∃ u2, (get_user (update_user
          (insert_user (insert_guild initState 1 true).2 1 2 "Alice" true true).2 1 2
          { losses := some 3 } true true).2 1 2 true).1 = .ok (some u2) ∧
       (∀ v, ({ losses := some 3 } : UserFields).username = some v → u2.username = v) ∧
       (∀ v, ({ losses := some 3 } : UserFields).elo = some v → u2.elo = v) ∧
       (∀ v, ({ losses := some 3 } : UserFields).banned = some v → u2.banned = v) ∧
       (∀ v, ({ losses := some 3 } : UserFields).wins = some v → u2.wins = v) ∧
       (∀ v, ({ losses := some 3 } : UserFields).losses = some v → u2.losses = v))) :=
  ⟨⟨rfl, by decide, by decide, by decide, by decide⟩,
    C7_round_trip (insert_user (insert_guild initState 1 true).2 1 2 "Alice" true true).2
      1 2 { defaultGuildEntry 1 with users := [(2, defaultUserRow 1 2 "Alice")] }
      (defaultUserRow 1 2 "Alice") { log_channel := some 9 } { losses := some 3 }
      rfl (by decide) (by decide) (by decide) (by decide)⟩

/-- C1 counterexample: `insert_guild` with a failing storage write surfaces
the failure, leaves the backing store unchanged — and leaves the cache
MUTATED: the new tenant entry is in the cache but not in the store, so the
operation did apply the in-memory mutation although the persisted write did
not succeed, and the two stores disagree on the touched row. -/
theorem C1_counterexample :
    (insert_guild initState 1 false).1 = .error .storageUnavailable ∧
    (insert_guild initState 1 false).2.db = initState.db ∧
    (insert_guild initState 1 false).2.cache = [(1, defaultGuildEntry 1)] ∧
    initState.cache = [] := by decide

/-- C1 (amended): every mutating operation applies its Cache Store mutation
BEFORE the backing-store write; if the write fails, the backing store is left
unchanged while the cache already holds the mutation (the stores diverge on
the touched row and the storage failure is surfaced); when the write succeeds,
the same field values are applied to the cache entry and the persisted row
(for a fresh tenant both sides get the identical default column values). -/
theorem C1_amended (s : SysState) (gid uid : Int) (gf : GuildFields) (uf : UserFields)
    (name : String) (hc : s.conn.isSome) (hg : dictGet s.cache gid = none)
    (hgf : ¬ gf = {}) (huf : ¬ uf = {}) :
    insert_guild s gid false =
      (.error .storageUnavailable,
        { s with cache := dictSet s.cache gid (defaultGuildEntry gid) }) ∧
    insert_guild s gid true =
      (.ok (some (defaultGuildEntry gid)),
        { s with cache := dictSet s.cache gid (defaultGuildEntry gid),
                 db := { s.db with guilds := s.db.guilds ++ [defaultGuildRow gid] } }) ∧
    ((defaultGuildEntry gid).guild_id = (defaultGuildRow gid).guild_id ∧
     (defaultGuildEntry gid).vc_queues_category = (defaultGuildRow gid).vc_queues_category ∧
     (defaultGuildEntry gid).vc_matches_category = (defaultGuildRow gid).vc_matches_category ∧
     (defaultGuildEntry gid).scorer_role_id = (defaultGuildRow gid).scorer_role_id ∧
     (defaultGuildEntry gid).log_channel = (defaultGuildRow gid).log_channel) ∧
    (∀ (t : SysState) (e : GuildEntry), t.conn.isSome → dictGet t.cache gid = some e →
      update_guild t gid gf true false =
        (.error .storageUnavailable,
          { t with cache := mapAtKey t.cache gid (fun e => applyGuildFields e gf) }) ∧
      update_guild t gid gf true true =
        (.ok (some gf),
          { t with cache := mapAtKey t.cache gid (fun e => applyGuildFields e gf),
                   db := { t.db with guilds := (t.db.guilds.map
                     (fun r => if r.guild_id = gid then applyGuildRow r gf else r)) } })) ∧
    (∀ (t : SysState) (e : GuildEntry), t.conn.isSome → dictGet t.cache gid = some e →
      dictGet e.users uid = none →
      insert_user t gid uid name true false =
        (.error .storageUnavailable,
          { t with cache := (mapAtKey t.cache gid
            (fun e2 => { e2 with users := dictSet e2.users uid (defaultUserRow gid uid name) })) }) ∧
      insert_user t gid uid name true true =
        (.ok (some (defaultUserRow gid uid name)),
          { t with
            cache := (mapAtKey t.cache gid
              (fun e2 => { e2 with users := dictSet e2.users uid (defaultUserRow gid uid name) })),
            db := { t.db with users := t.db.users ++ [defaultUserRow gid uid name] } })) ∧
    (∀ (t : SysState) (e : GuildEntry) (u : UserRow), t.conn.isSome →
      dictGet t.cache gid = some e → dictGet e.users uid = some u →
      update_user t gid uid uf true false =
        (.error .storageUnavailable,
          { t with cache := (mapAtKey t.cache gid
            (fun e => { e with users := mapAtKey e.users uid (fun u => applyUserFields u uf) })) }) ∧
      update_user t gid uid uf true true =
        (.ok (some uf),
          { t with
            cache := (mapAtKey t.cache gid
              (fun e => { e with users := mapAtKey e.users uid (fun u => applyUserFields u uf) })),
            db := { t.db with users := (t.db.users.map
              (fun r => if r.guild_id = gid ∧ r.user_id = uid then applyUserRow r uf else r)) } })) := by
  refine ⟨insert_guild_fresh_fail hc hg, insert_guild_fresh_ok hc hg,
    ⟨rfl, rfl, rfl, rfl, rfl⟩, ?_, ?_, ?_⟩
  · intro t e hct he
    exact ⟨update_guild_present_fail gf true hct he hgf,
           update_guild_present gf true hct he hgf⟩
  · intro t e hct he hdu
    exact ⟨insert_user_fresh_fail name true hct he hdu,
           insert_user_fresh_ok name true hct he hdu⟩
  · intro t e u hct he hdu
    exact ⟨update_user_present_fail uf true hct he hdu huf,
           update_user_present uf true hct he hdu huf⟩

/-- Witness for C1 at the freshly connected empty state (projecting the two
`insert_guild` conjuncts of the amended claim). -/
theorem C1_witness :
    (initState.conn.isSome = true ∧ dictGet initState.cache 1 = none ∧
     ¬ ({ scorer_role_id := some 5 } : GuildFields) = {} ∧
     ¬ ({ elo := some 7 } : UserFields) = {}) ∧
    (insert_guild initState 1 false =
      (.error .storageUnavailable,
        { initState with cache := dictSet initState.cache 1 (defaultGuildEntry 1) }) ∧
     insert_guild initState 1 true =
      (.ok (some (defaultGuildEntry 1)),
        { initState with
          cache := dictSet initState.cache 1 (defaultGuildEntry 1),
          db := { initState.db with guilds := initState.db.guilds ++ [defaultGuildRow 1] } })) :=
  ⟨⟨rfl, rfl, by decide, by decide⟩,
   ⟨(C1_amended initState 1 2 { scorer_role_id := some 5 } { elo := some 7 } "Alice"
       rfl rfl (by decide) (by decide)).1,
    (C1_amended initState 1 2 { scorer_role_id := some 5 } { elo := some 7 } "Alice"
       rfl rfl (by decide) (by decide)).2.1⟩⟩

/-- C2 counterexample: `load_cache` does not clear the Cache Store.  Over an
EMPTY backing store, rebuilding from scratch would yield the empty cache, but
a stale cache entry survives hydration untouched. -/
theorem C2_counterexample :
    (load_cache { cache := [(1, defaultGuildEntry 1)], conn := some ⟨false⟩,
                  schemaRuns := 1, db := DB.empty }).2.cache
      = [(1, defaultGuildEntry 1)] ∧
    loadOfDb DB.empty = [] ∧
    [(1, defaultGuildEntry 1)] ≠ loadOfDb DB.empty := by decide

/-- C2 (amended): `load_cache` does not clear the cache — it overwrites or
adds one entry per persisted tenant row, leaving cache entries without a
persisted row in place.  Nevertheless, starting from any synced state (cache
equal to the hydration of the store, store orphan-free), after any sequence of
ensure/update/profile-read calls whose storage writes all succeed, a simulated
process restart (same database, empty cache) followed by `load_cache` rebuilds
a cache field-for-field equal to the pre-restart cache. -/
theorem C2_amended (s0 : SysState) (ops : List Op) (h : synced s0) (c : Conn) (n : Nat) :
    (load_cache { cache := [], conn := some c, schemaRuns := n,
                  db := (runOps s0 ops).db }).2.cache = (runOps s0 ops).cache := by
  have hs := synced_runOps h ops
  simp only [load_cache, Option.isNone_some, Bool.false_eq_true, if_false]
  exact hs.1.symm

/-- Witness for C2: a concrete four-operation session over an initially empty
store, restarted and rehydrated. -/
theorem C2_witness :
    synced initState ∧
    (load_cache
        { cache := [],
          conn := some ⟨false⟩,
          schemaRuns := 1,
          db := (runOps initState
            [Op.insertGuild 1, Op.updateGuild 1 { scorer_role_id := some 5 },
             Op.insertUser 1 2 "Alice", Op.updateUser 1 2 { elo := some 7 }]).db }).2.cache
      = (runOps initState
          [Op.insertGuild 1, Op.updateGuild 1 { scorer_role_id := some 5 },
           Op.insertUser 1 2 "Alice", Op.updateUser 1 2 { elo := some 7 }]).cache :=
  ⟨by decide,
   C2_amended initState
     [Op.insertGuild 1, Op.updateGuild 1 { scorer_role_id := some 5 },
      Op.insertUser 1 2 "Alice", Op.updateUser 1 2 { elo := some 7 }]
     (by decide) ⟨false⟩ 1⟩

/-- C3 counterexample: `update_guild` with zero supplied fields on a
never-seen tenant returns the no-op signal — but it does NOT perform zero
writes: the implicit ensure-tenant step inserts a `guilds` row and a cache
entry first. -/
theorem C3_counterexample :
    (update_guild initState 1 {} true true).1 = .ok none ∧
    initState.db.guilds = [] ∧
    (update_guild initState 1 {} true true).2.db.guilds = [defaultGuildRow 1] ∧
    (update_guild initState 1 {} true true).2.cache ≠ initState.cache := by decide

/-- C3 (amended): when the touched tenant entry is already cached,
`update_guild` with zero supplied fields and `update_user` for a never-ensured
member return the no-op signal, perform zero writes to the backing schema and
leave the Cache Store unchanged (for any storage oracles, which are never
consulted); when the tenant is absent, the implicit ensure-tenant step first
performs one insert write and caches the tenant before the no-op signal is
returned. -/
theorem C3_amended (s : SysState) (gid uid : Int) (e : GuildEntry) (uf : UserFields)
    (w1 w2 : Bool) (hc : s.conn.isSome) (he : dictGet s.cache gid = some e)
    (hu : dictGet e.users uid = none) :
    update_guild s gid {} w1 w2 = (.ok none, s) ∧
    update_user s gid uid uf w1 w2 = (.ok none, s) :=
  ⟨update_guild_noop w1 w2 hc he, update_user_absent uf w1 w2 hc he hu⟩

/-- Witness for C3 at a state with tenant 1 already ensured. -/
theorem C3_witness :
    ((insert_guild initState 1 true).2.conn.isSome = true ∧
     dictGet (insert_guild initState 1 true).2.cache 1 = some (defaultGuildEntry 1) ∧
     dictGet (defaultGuildEntry 1).users 2 = none) ∧
    (update_guild (insert_guild initState 1 true).2 1 {} true true
        = (.ok none, (insert_guild initState 1 true).2) ∧
     update_user (insert_guild initState 1 true).2 1 2 { elo := some 7 } true true
        = (.ok none, (insert_guild initState 1 true).2)) :=
  ⟨⟨rfl, by decide, rfl⟩,
   C3_amended (insert_guild initState 1 true).2 1 2 (defaultGuildEntry 1)
     { elo := some 7 } true true rfl (by decide) rfl⟩

end Claims

end RBW
